import Mathlib

/-!
Verification of the Option++ command-line parser against its specification.

The repository code under verification is src/src/parser.cpp.  The class
declarations it relies on (option.hpp, parser.hpp with the token-scan loop,
parser_result.hpp) are not part of the sources, so those collaborators are
modelled from the specification where needed; every definition marked
"Modelled from the spec" says what is missing.  Machine integers are
modelled as Int/Nat with the usual LP64 widths (int = 32 bit, unsigned =
32 bit, long long = 64 bit).  C++ exceptions become Except values; the
external bound-variable side effects become an explicit ordered trace of
write events that is retained even when parsing fails.
-/

namespace optionpp

/-- Argument type tag of an option descriptor (option::arg_type).  Modelled
from the spec, section 3: string, signed integer, unsigned integer, floating
point. -/
inductive arg_type where
  | string_arg
  | int_arg
  | uint_arg
  | double_arg
deriving DecidableEq

/-- Option descriptor.  Modelled from the spec (section 3, Option Descriptor):
the class itself lives in option.hpp, which is not under src/.  A null short
name is the character 0, an empty argument_name means the option takes no
argument.  `has_bound_flag` records whether a presence-flag write target is
bound to the descriptor and `has_bound_arg` whether an argument write target
is bound (has_bound_argument_variable() in the source). -/
structure option where
  long_name : String := ""
  short_name : Char := '\x00'
  description : String := ""
  argument_name : String := ""
  arg_required : Bool := false
  argument_type : arg_type := .string_arg
  has_bound_flag : Bool := false
  has_bound_arg : Bool := false
deriving DecidableEq

/-- A named group of option descriptors.  Modelled from the spec, section 2:
an ordered collection of option descriptors grouped by a string tag. -/
structure option_group where
  name : String := ""
  options : List option := []
deriving DecidableEq

/-- Lookup of an option inside a group by long name: first match in insertion
order.  Modelled from the spec, section 6 (Option Registry lookup). -/
def option_group.find_long (g : option_group) (long_name : String) : Option option :=
  g.options.find? (fun o => o.long_name == long_name)

/-- Lookup of an option inside a group by short name: first match in insertion
order.  Modelled from the spec, section 6 (Option Registry lookup). -/
def option_group.find_short (g : option_group) (c : Char) : Option option :=
  g.options.find? (fun o => o.short_name == c)

/-- The parser: its registry of groups plus the configurable special strings
(parser.cpp set_custom_strings, defaults from the spec, section 6). -/
structure parser where
  m_groups : List option_group := []
  m_short_option_pfx : String := "-"
  m_long_option_pfx : String := "--"
  m_end_of_options : String := "--"
  m_equals : String := "="
deriving DecidableEq

/-- Walk the groups in order and return the first group-level match
(parser.cpp, parser::find_option(const std::string&), lines 212-220). -/
def find_in_groups_long : List option_group → String → Option option
  | [], _ => none
  | g :: gs, n =>
    match option_group.find_long g n with
    | some o => some o
    | none => find_in_groups_long gs n

/-- Walk the groups in order and return the first group-level match
(parser.cpp, parser::find_option(char), lines 232-240). -/
def find_in_groups_short : List option_group → Char → Option option
  | [], _ => none
  | g :: gs, c =>
    match option_group.find_short g c with
    | some o => some o
    | none => find_in_groups_short gs c

/-- parser::find_option(const std::string&) from parser.cpp. -/
def parser.find_option_long (p : parser) (long_name : String) : Option option :=
  find_in_groups_long p.m_groups long_name

/-- parser::find_option(char) from parser.cpp. -/
def parser.find_option_short (p : parser) (c : Char) : Option option :=
  find_in_groups_short p.m_groups c

/-- parser::add_option(const option&) from parser.cpp, lines 35-43: find the
first group named "" from the front; append the option to it, or append a
fresh ""-named group holding the option when none exists. -/
def add_to_default_group : List option_group → option → List option_group
  | [], opt => [{ name := "", options := [opt] }]
  | g :: gs, opt =>
    if g.name = "" then { g with options := g.options ++ [opt] } :: gs
    else g :: add_to_default_group gs opt

/-- parser::add_option(const option&) on the parser itself. -/
def parser.add_option (p : parser) (opt : option) : parser :=
  { p with m_groups := add_to_default_group p.m_groups opt }

/-- parser::operator[](const std::string&) from parser.cpp, lines 99-105:
return the registered option when the long name resolves, otherwise register
a fresh default option carrying that long name and return it.  The C++
returns a mutable reference; here the possibly-updated parser is returned
alongside the option. -/
def parser.subscript_long (p : parser) (long_name : String) : parser × option :=
  match parser.find_option_long p long_name with
  | some o => (p, o)
  | none =>
    let o : option := { long_name := long_name }
    (parser.add_option p o, o)

/-- parser::operator[](char) from parser.cpp, lines 107-113. -/
def parser.subscript_short (p : parser) (short_name : Char) : parser × option :=
  match parser.find_option_short p short_name with
  | some o => (p, o)
  | none =>
    let o : option := { short_name := short_name }
    (parser.add_option p o, o)

/-- One parsed occurrence (struct parsed_entry of parser_result.hpp, modelled
from the spec, section 3, Parsed Entry; field defaults are the C++ member
initializers). -/
structure parsed_entry where
  original_text : String := ""
  original_without_argument : String := ""
  is_option : Bool := false
  long_name : String := ""
  short_name : Char := '\x00'
  argument : String := ""
  opt_info : Option option := none
deriving DecidableEq

/-- Parser result.  Modelled from the spec, section 3: the ordered sequence of
parsed entries plus the separate ordered positional-argument list. -/
structure parser_result where
  entries : List parsed_entry := []
  positional : List String := []
deriving DecidableEq

/-- Classification outcome communicated by parse_argument to the scan loop
(cl_arg_type in parser.hpp; spec, section 3, Classification outcome). -/
inductive cl_arg_type where
  | non_option
  | end_indicator
  | no_arg
  | arg_required
  | arg_optional
deriving DecidableEq

/-- Kinds of parse errors.  One constructor per distinct family of throw
sites in parser.cpp; the C++ code raises a single parse_error type whose
message text distinguishes the kinds, and the kind stands for that message
(invalid_option for invalid option, arg_not_accepted for does not accept
arguments, invalid_argument_value for must be an integer / a number,
must_not_be_negative and out_of_range for the numeric range messages,
missing_argument for the required-argument message raised by the scan
loop). -/
inductive error_kind where
  | invalid_option
  | arg_not_accepted
  | missing_argument
  | invalid_argument_value
  | must_not_be_negative
  | out_of_range
deriving DecidableEq

/-- A parse error: its kind, the reporting function and the offending option
or token text (the parse_error exception of error.hpp, with the redundant
human-readable message elided in favour of the kind). -/
structure parse_error where
  kind : error_kind
  fn_name : String
  option_text : String
deriving DecidableEq

/-- One write through a bound write target, identified by the owning
names of the owning descriptor.  The spec, sections 3 and 4.2, describes the bound
write targets; the trace order is the C++ call order. -/
inductive write_event where
  | bool_write (long_name : String) (short_name : Char) (value : Bool)
  | int_write (long_name : String) (short_name : Char) (value : Int)
  | uint_write (long_name : String) (short_name : Char) (value : Nat)
  | double_write (long_name : String) (short_name : Char) (value : Rat)
  | string_write (long_name : String) (short_name : Char) (value : String)
deriving DecidableEq

/-- Events produced by opt->write_bool(true): the presence flag is written
exactly when a flag target is bound (option::write_bool, modelled from the
spec, section 4.2 side effect). -/
def write_bool_events (o : option) : List write_event :=
  if o.has_bound_flag then [.bool_write o.long_name o.short_name true] else []

/-- The two C++ standard exceptions that the numeric conversions raise. -/
inductive cpp_exception where
  | invalid_argument
  | out_of_range
deriving DecidableEq

deriving instance DecidableEq for Except

/-- Whitespace recognised by the C locale isspace, used by the strtol family
before the converted digits. -/
def isspace_cpp (c : Char) : Bool :=
  c = ' ' ∨ c = '\t' ∨ c = '\n' ∨ c = '\x0b' ∨ c = '\x0c' ∨ c = '\r'

/-- Decimal digit value. -/
def digit_val (c : Char) : Option Nat :=
  if '0' ≤ c ∧ c ≤ '9' then some (c.toNat - '0'.toNat) else none

/-- Consume a maximal run of decimal digits, returning the accumulated value
and the number of digits consumed. -/
def take_digits : List Char → Nat → Nat × Nat
  | [], acc => (acc, 0)
  | c :: cs, acc =>
    match digit_val c with
    | none => (acc, 0)
    | some d =>
      let r := take_digits cs (acc * 10 + d)
      (r.1, r.2 + 1)

/-- Core of strtol/strtoll base 10, modelled from the C++ standard library:
skip leading whitespace, an optional sign, then a nonempty digit run; the
returned count is the index one past the last converted character.  The
value is unbounded here; the stoi/stoll wrappers apply the width checks. -/
def strtoll_core (s : List Char) : Option (Int × Nat) :=
  let w := (s.takeWhile isspace_cpp).length
  let rest := s.drop w
  let signed : Int × Nat × List Char :=
    match rest with
    | '+' :: r => (1, 1, r)
    | '-' :: r => (-1, 1, r)
    | r => (1, 0, r)
  let d := take_digits signed.2.2 0
  if d.2 = 0 then none
  else some (signed.1 * (d.1 : Int), w + signed.2.1 + d.2)

/-- std::stoi (int is 32 bits wide), modelled from the C++ standard library:
invalid_argument when no conversion is possible, out_of_range when the value
does not fit in int, otherwise the value and the count of consumed
characters. -/
def stoi (s : String) : Except cpp_exception (Int × Nat) :=
  match strtoll_core s.data with
  | none => .error .invalid_argument
  | some (v, n) =>
    if v < -(2 ^ 31) ∨ v > 2 ^ 31 - 1 then .error .out_of_range else .ok (v, n)

/-- std::stoll (long long is 64 bits wide), modelled from the C++ standard
library. -/
def stoll (s : String) : Except cpp_exception (Int × Nat) :=
  match strtoll_core s.data with
  | none => .error .invalid_argument
  | some (v, n) =>
    if v < -(2 ^ 63) ∨ v > 2 ^ 63 - 1 then .error .out_of_range else .ok (v, n)

/-- Optional exponent part of a floating-point literal: e or E, an optional
sign, and a nonempty digit run; consumed only when the digits are present. -/
def parse_exponent_tail (r : List Char) : Int × Nat :=
  match r with
  | '+' :: r2 =>
    let d := take_digits r2 0
    if d.2 = 0 then (0, 0) else ((d.1 : Int), 2 + d.2)
  | '-' :: r2 =>
    let d := take_digits r2 0
    if d.2 = 0 then (0, 0) else (-(d.1 : Int), 2 + d.2)
  | r2 =>
    let d := take_digits r2 0
    if d.2 = 0 then (0, 0) else ((d.1 : Int), 1 + d.2)

/-- Optional exponent of a floating-point literal including the leading e/E. -/
def parse_exponent (r : List Char) : Int × Nat :=
  match r with
  | 'e' :: r1 => parse_exponent_tail r1
  | 'E' :: r1 => parse_exponent_tail r1
  | _ => (0, 0)

/-- Decimal body of strtod after the sign: digits, an optional fraction, an
optional exponent.  The value is kept exact as a rational; no claim exercises
floating-point conversion, so IEEE rounding and the hexadecimal, infinity and
nan forms are not modelled. -/
def stod_body (r : List Char) (sign : Rat) (consumed : Nat) : Option (Rat × Nat) :=
  let ip := take_digits r 0
  let r2 := r.drop ip.2
  let frac : Nat × Nat × Nat :=
    match r2 with
    | '.' :: r3 =>
      let f := take_digits r3 0
      (f.1, f.2, f.2 + 1)
    | _ => (0, 0, 0)
  if ip.2 = 0 ∧ frac.2.1 = 0 then none
  else
    let base : Rat := sign * ((ip.1 : Rat) + (frac.1 : Rat) / (10 : Rat) ^ frac.2.1)
    let ex := parse_exponent (r2.drop frac.2.2)
    some (base * (10 : Rat) ^ ex.1, consumed + ip.2 + frac.2.2 + ex.2)

/-- Core of strtod, modelled from the C++ standard library (decimal forms
only): whitespace, optional sign, then the decimal body. -/
def stod_core (s : List Char) : Option (Rat × Nat) :=
  let w := (s.takeWhile isspace_cpp).length
  match s.drop w with
  | '+' :: r => stod_body r 1 (w + 1)
  | '-' :: r => stod_body r (-1) (w + 1)
  | r => stod_body r 1 w

/-- std::stod, modelled from the C++ standard library on the decimal forms;
the overflow-to-out_of_range case does not arise for exact rationals. -/
def stod (s : String) : Except cpp_exception (Rat × Nat) :=
  match stod_core s.data with
  | none => .error .invalid_argument
  | some r => .ok r

/-- Reporting name used by the argument binder. -/
def fn_write : String := "optionpp::parser::write_option_argument"

/-- parser::write_option_argument from parser.cpp, lines 263-325: when the
entry resolves to a descriptor with a bound argument variable, convert the
argument text according to the declared type and emit the corresponding
write, mapping std::invalid_argument to the must-be-an-integer or
must-be-a-number error, negative unsigned values to their dedicated error,
and range overflow to the out-of-range error.  A conversion that does not
consume the whole string raises std::invalid_argument (lines 280-281,
292-293, 299-300). -/
def write_option_argument (entry : parsed_entry) : Except parse_error (List write_event) :=
  match entry.opt_info with
  | none => .ok []
  | some opt =>
    if opt.has_bound_arg = false then .ok []
    else
      let arg := entry.argument
      let opt_name := entry.original_without_argument
      match opt.argument_type with
      | .uint_arg =>
        match stoll arg with
        | .error .invalid_argument =>
          .error { kind := .invalid_argument_value, fn_name := fn_write, option_text := opt_name }
        | .error .out_of_range =>
          .error { kind := .out_of_range, fn_name := fn_write, option_text := opt_name }
        | .ok (value, pos) =>
          if pos ≠ arg.data.length then
            .error { kind := .invalid_argument_value, fn_name := fn_write, option_text := opt_name }
          else if value < 0 then
            .error { kind := .must_not_be_negative, fn_name := fn_write, option_text := opt_name }
          else if value > 4294967295 then
            .error { kind := .out_of_range, fn_name := fn_write, option_text := opt_name }
          else .ok [.uint_write opt.long_name opt.short_name value.toNat]
      | .int_arg =>
        match stoi arg with
        | .error .invalid_argument =>
          .error { kind := .invalid_argument_value, fn_name := fn_write, option_text := opt_name }
        | .error .out_of_range =>
          .error { kind := .out_of_range, fn_name := fn_write, option_text := opt_name }
        | .ok (value, pos) =>
          if pos ≠ arg.data.length then
            .error { kind := .invalid_argument_value, fn_name := fn_write, option_text := opt_name }
          else .ok [.int_write opt.long_name opt.short_name value]
      | .double_arg =>
        match stod arg with
        | .error .invalid_argument =>
          .error { kind := .invalid_argument_value, fn_name := fn_write, option_text := opt_name }
        | .error .out_of_range =>
          .error { kind := .out_of_range, fn_name := fn_write, option_text := opt_name }
        | .ok (value, pos) =>
          if pos ≠ arg.data.length then
            .error { kind := .invalid_argument_value, fn_name := fn_write, option_text := opt_name }
          else .ok [.double_write opt.long_name opt.short_name value]
      | .string_arg =>
        .ok [.string_write opt.long_name opt.short_name arg]

/-- Reporting name used by parse_argument. -/
def fn_parse_argument : String := "optionpp::parser::parse_argument"

/-- Reporting name used by parse_short_option_group. -/
def fn_short_group : String := "optionpp::parser::parse_short_option_group"

/-- Reporting name used by the scan loop (parser.hpp parse). -/
def fn_parse : String := "optionpp::parser::parse"

/-- parser::is_end_indicator (declared in parser.hpp, not under src/).
Modelled from the spec, section 4.1 step 1: the token exactly equals the
configured end-of-options indicator. -/
def is_end_indicator (p : parser) (s : String) : Bool :=
  s == p.m_end_of_options

/-- parser::is_long_option (declared in parser.hpp, not under src/).
Modelled from the spec, section 4.1 step 3: the specifier begins with the
long-option prefix and is longer than it. -/
def is_long_option (p : parser) (s : String) : Bool :=
  (parser.m_long_option_pfx p).data.isPrefixOf s.data
    && decide ((parser.m_long_option_pfx p).data.length < s.data.length)

/-- parser::is_short_option_group (declared in parser.hpp, not under src/).
Modelled from the spec, section 4.1 step 4: the specifier begins with the
short-option prefix and is longer than it. -/
def is_short_option_group (p : parser) (s : String) : Bool :=
  (parser.m_short_option_pfx p).data.isPrefixOf s.data
    && decide ((parser.m_short_option_pfx p).data.length < s.data.length)

/-- std::string::find for a substring pattern: the least index at which the
pattern occurs, none when it does not occur. -/
def find_substr (pat : List Char) : List Char → Option Nat
  | [] => if pat.isPrefixOf ([] : List Char) then some 0 else none
  | c :: s => if pat.isPrefixOf (c :: s) then some 0 else (find_substr pat s).map (· + 1)

/-- The parsed_entry that parse_argument builds for a long option
(parser.cpp lines 387-391): the raw token, the specifier, the name extracted
from the token, the short name of the descriptor and the attached argument (empty
when none was attached). -/
def long_option_entry (original specifier name : String) (opt : option) (arg : String) :
    parsed_entry :=
  { original_text := original, original_without_argument := specifier, is_option := true,
    long_name := name, short_name := opt.short_name, argument := arg, opt_info := some opt }

/-- The parsed_entry built for one character of a short-option cluster before
any argument handling (parser.cpp lines 423-430). -/
def short_base_entry (p : parser) (opt : option) (c : Char) : parsed_entry :=
  { original_text := parser.m_short_option_pfx p ++ c.toString,
    original_without_argument := parser.m_short_option_pfx p ++ c.toString,
    is_option := true, long_name := opt.long_name, short_name := c,
    argument := "", opt_info := some opt }

/-- The entry for a non-final argument-taking cluster character: the rest of
the cluster, plus the assignment separator and attached value when an
assignment was present, become the argument (parser.cpp lines 435-443). -/
def short_cluster_entry (p : parser) (opt : option) (c : Char) (rest : List Char)
    (argument : String) (has_arg : Bool) : parsed_entry :=
  let arg := String.mk rest ++ (if has_arg then parser.m_equals p ++ argument else "")
  let b := short_base_entry p opt c
  { b with argument := arg, original_text := b.original_text ++ arg }

/-- The entry for a final argument-taking cluster character with an attached
assignment (parser.cpp lines 450-453). -/
def short_last_entry (p : parser) (opt : option) (c : Char) (argument : String) :
    parsed_entry :=
  let b := short_base_entry p opt c
  let txt := b.original_text ++ parser.m_equals p ++ argument
  { b with argument := argument, original_text := txt }

/-- parser::parse_short_option_group from parser.cpp, lines 409-478: scan the
cluster characters left to right; an unknown character raises invalid_option
naming the one-character option; write_bool(true) runs before the argument
handling; a non-final argument-taking character consumes the remainder of the
token as its argument and stops the scan; a final argument-taking character
binds an attached assignment or reports the required/optional classification;
a final no-argument character with a dangling assignment raises
arg_not_accepted. -/
def parse_short_option_group (p : parser) (short_names : List Char) (argument : String)
    (has_arg : Bool) :
    List write_event × Except parse_error (List parsed_entry × cl_arg_type) :=
  match short_names with
  | [] => ([], .ok ([], .no_arg))
  | c :: rest =>
    match parser.find_option_short p c with
    | none =>
      ([], .error { kind := .invalid_option, fn_name := fn_short_group,
                    option_text := parser.m_short_option_pfx p ++ c.toString })
    | some opt =>
      let fe := write_bool_events opt
      if opt.argument_name ≠ "" then
        if rest = [] then
          if has_arg then
            let e := short_last_entry p opt c argument
            match write_option_argument e with
            | .error err => (fe, .error err)
            | .ok evs => (fe ++ evs, .ok ([e], .no_arg))
          else if opt.arg_required then (fe, .ok ([short_base_entry p opt c], .arg_required))
          else (fe, .ok ([short_base_entry p opt c], .arg_optional))
        else
          let e := short_cluster_entry p opt c rest argument has_arg
          match write_option_argument e with
          | .error err => (fe, .error err)
          | .ok evs => (fe ++ evs, .ok ([e], .no_arg))
      else
        if rest = [] ∧ has_arg then
          (fe, .error { kind := .arg_not_accepted, fn_name := fn_short_group,
                        option_text := parser.m_short_option_pfx p ++ c.toString })
        else
          match parse_short_option_group p rest argument has_arg with
          | (evs, .error err) => (fe ++ evs, .error err)
          | (evs, .ok (es, ty)) => (fe ++ evs, .ok (short_base_entry p opt c :: es, ty))

/-- The option-type dispatch of parser::parse_argument (parser.cpp lines
357-407), after the token has been split into specifier, attached argument
and assignment flag: long options resolve by name and either classify, bind
the attached argument (conversion first, then the presence flag), or raise
invalid_option/arg_not_accepted; short-prefixed specifiers delegate to the
cluster scan; everything else is a non-option entry. -/
def parse_specifier (p : parser) (argument option_specifier option_argument : String)
    (assignment_found : Bool) :
    List write_event × Except parse_error (List parsed_entry × cl_arg_type) :=
  if is_long_option p option_specifier then
    let option_name :=
      String.mk (option_specifier.data.drop (parser.m_long_option_pfx p).data.length)
    match parser.find_option_long p option_name with
    | none =>
      ([], .error { kind := .invalid_option, fn_name := fn_parse_argument,
                    option_text := option_specifier })
    | some opt =>
      if opt.argument_name ≠ "" then
        let ty : cl_arg_type :=
          if assignment_found then .no_arg
          else if opt.arg_required then .arg_required
          else .arg_optional
        let arg := if assignment_found then option_argument else ""
        let entry := long_option_entry argument option_specifier option_name opt arg
        if assignment_found then
          match write_option_argument entry with
          | .error e => ([], .error e)
          | .ok evs => (evs ++ write_bool_events opt, .ok ([entry], ty))
        else (write_bool_events opt, .ok ([entry], ty))
      else
        if assignment_found then
          ([], .error { kind := .arg_not_accepted, fn_name := fn_parse_argument,
                        option_text := option_specifier })
        else
          (write_bool_events opt,
           .ok ([long_option_entry argument option_specifier option_name opt ""], .no_arg))
  else if is_short_option_group p option_specifier then
    parse_short_option_group p
      (option_specifier.data.drop (parser.m_short_option_pfx p).data.length)
      option_argument assignment_found
  else
    ([], .ok ([{ original_text := argument, is_option := false }], .non_option))

/-- parser::parse_argument from parser.cpp, lines 327-407: recognise the
end-of-options indicator; split the token at the first occurrence of the
assignment separator; a specifier equal to a bare prefix is the malformed
assignment error (raised with the invalid-option message, lines 348-355);
then dispatch on the specifier. -/
def parse_argument (p : parser) (argument : String) :
    List write_event × Except parse_error (List parsed_entry × cl_arg_type) :=
  if is_end_indicator p argument then ([], .ok ([], .end_indicator))
  else
    match find_substr p.m_equals.data argument.data with
    | none => parse_specifier p argument argument "" false
    | some pos =>
      let option_specifier := String.mk (argument.data.take pos)
      let option_argument := String.mk (argument.data.drop (pos + p.m_equals.data.length))
      if option_specifier = parser.m_short_option_pfx p
          ∨ option_specifier = parser.m_long_option_pfx p then
        ([], .error { kind := .invalid_option, fn_name := fn_parse_argument,
                      option_text := option_specifier ++ p.m_equals })
      else parse_specifier p argument option_specifier option_argument true

/-- Is the next token available to serve as an optional argument?  Modelled
from the spec, section 4.1 step 3: it must not itself look like an option or
the end marker. -/
def is_arg_candidate (p : parser) (s : String) : Bool :=
  !(is_end_indicator p s || is_long_option p s || is_short_option_group p s)

/-- The missing-argument error for a required-argument option whose argument
never arrived.  Modelled from the spec, section 7: it carries the offending
option text. -/
def missing_argument_error (e : parsed_entry) : parse_error :=
  { kind := .missing_argument, fn_name := fn_parse,
    option_text := e.original_without_argument }

/-- What the scan loop should do after classifying one token. -/
inductive step_result where
  | failed (e : parse_error)
  | finish (es : List parsed_entry)
  | keep_going (es : List parsed_entry) (to_pos : Bool)
      (pending : Option (parsed_entry × Bool))
deriving DecidableEq

/-- Classify one token for the scan loop: an error aborts; the end-of-options
indicator finishes the scan; otherwise the produced entries are appended (a
non-option token is also copied into the positional list) and a trailing
required/optional classification leaves its entry pending for the next
token.  Modelled from the spec, section 4.1 (the scan loop of the parse
function template in parser.hpp is not under src/). -/
def process_token (p : parser) (t : String) : List write_event × step_result :=
  match parse_argument p t with
  | (evs, .error e) => (evs, .failed e)
  | (evs, .ok (es, ty)) =>
    match ty with
    | .end_indicator => (evs, .finish es)
    | .non_option => (evs, .keep_going es true none)
    | .no_arg => (evs, .keep_going es false none)
    | .arg_required =>
      (evs, .keep_going es.dropLast false ((es.getLast?).map (fun e => (e, true))))
    | .arg_optional =>
      (evs, .keep_going es.dropLast false ((es.getLast?).map (fun e => (e, false))))

/-- The token-scan loop of parser::parse (the function template in
parser.hpp, not under src/).  Modelled from the spec, section 4.1: scan left
to right with one token of lookahead, carried here as the pending
required/optional entry; after the end-of-options indicator copy every
remaining token verbatim into the positional list and stop; a pending
required argument consumes the next token (end of input or the end-of-options
marker instead raise missing_argument, section 7); a pending optional
argument consumes the next token only when it is not itself option-like or
the end marker, and is otherwise recorded with an empty argument. -/
def parse_loop (p : parser) :
    List String → List parsed_entry → List String →
    Option (parsed_entry × Bool) → List write_event →
    List write_event × Except parse_error parser_result
  | [], acc, pos, none, evs => (evs, .ok { entries := acc, positional := pos })
  | [], _, _, some (e, true), evs => (evs, .error (missing_argument_error e))
  | [], acc, pos, some (e, false), evs =>
    (evs, .ok { entries := acc ++ [e], positional := pos })
  | t :: rest, acc, pos, some (e, true), evs =>
    if is_end_indicator p t then (evs, .error (missing_argument_error e))
    else
      match write_option_argument { e with argument := t } with
      | .error err => (evs, .error err)
      | .ok evs₂ =>
        parse_loop p rest (acc ++ [{ e with argument := t }]) pos none (evs ++ evs₂)
  | t :: rest, acc, pos, some (e, false), evs =>
    if is_arg_candidate p t then
      match write_option_argument { e with argument := t } with
      | .error err => (evs, .error err)
      | .ok evs₂ =>
        parse_loop p rest (acc ++ [{ e with argument := t }]) pos none (evs ++ evs₂)
    else
      match process_token p t with
      | (evs₁, .failed err) => (evs ++ evs₁, .error err)
      | (evs₁, .finish es) =>
        (evs ++ evs₁, .ok { entries := acc ++ [e] ++ es, positional := pos ++ rest })
      | (evs₁, .keep_going es to_pos pend) =>
        parse_loop p rest (acc ++ [e] ++ es) (if to_pos then pos ++ [t] else pos)
          pend (evs ++ evs₁)
  | t :: rest, acc, pos, none, evs =>
    match process_token p t with
    | (evs₁, .failed err) => (evs ++ evs₁, .error err)
    | (evs₁, .finish es) =>
      (evs ++ evs₁, .ok { entries := acc ++ es, positional := pos ++ rest })
    | (evs₁, .keep_going es to_pos pend) =>
      parse_loop p rest (acc ++ es) (if to_pos then pos ++ [t] else pos)
        pend (evs ++ evs₁)

/-- The token-list entry point parser::parse (parser.hpp, not under src/).
Modelled from the spec, section 6: the flag selects whether the first element
is skipped. -/
def parse (p : parser) (args : List String) (ignore_first : Bool) :
    List write_event × Except parse_error parser_result :=
  parse_loop p (if ignore_first then args.drop 1 else args) [] [] none []

/-- A parser with the default configuration strings and the given registry:
the shape every claim about the default configuration quantifies over. -/
def dparser (gs : List option_group) : parser :=
  { m_groups := gs }

/-- Witness registry: a no-argument short option. -/
def Wa : option := { short_name := 'a' }

/-- Witness registry: a required string-argument option usable in clusters. -/
def Wb : option :=
  { long_name := "bee", short_name := 'b', argument_name := "ARG", arg_required := true }

/-- Witness registry: a no-argument long option. -/
def Wq : option := { long_name := "quiet", short_name := 'q' }

/-- Witness registry: a required string-argument long option. -/
def Wfile : option :=
  { long_name := "file", short_name := 'f', argument_name := "FILE", arg_required := true }

/-- Witness registry: a bound required integer-argument option. -/
def Wcount : option :=
  { long_name := "count", argument_name := "N", arg_required := true,
    argument_type := .int_arg, has_bound_arg := true }

/-- Witness registry: a bound required unsigned-argument option. -/
def Wsize : option :=
  { long_name := "size", argument_name := "N", arg_required := true,
    argument_type := .uint_arg, has_bound_arg := true }

/-- Witness registry: a bound integer option that also binds a presence
flag. -/
def Wnum : option :=
  { long_name := "num", short_name := 'n', argument_name := "N", arg_required := true,
    argument_type := .int_arg, has_bound_flag := true, has_bound_arg := true }

/-- The witness group holding all witness options. -/
def WG : option_group :=
  { name := "", options := [Wa, Wb, Wq, Wfile, Wcount, Wsize, Wnum] }

/-- The witness parser with default configuration. -/
def WP : parser := dparser [WG]

theorem mk_data (s : String) : String.mk s.data = s := by
  cases s
  rfl

theorem isPrefixOf_singleton (c a : Char) (l : List Char) :
    List.isPrefixOf [c] (a :: l) = (c == a) := by
  simp [List.isPrefixOf]

theorem find_substr_not_mem (c : Char) :
    ∀ xs : List Char, c ∉ xs → find_substr [c] xs = none := by
  intro xs
  induction xs with
  | nil => intro _; simp [find_substr, List.isPrefixOf]
  | cons a as ih =>
    intro h
    have hca : c ≠ a := fun hc => h (hc ▸ List.mem_cons_self a as)
    have has : c ∉ as := fun hc => h (List.mem_cons_of_mem a hc)
    simp [find_substr, isPrefixOf_singleton, hca, ih has]

theorem find_substr_first (c : Char) :
    ∀ xs ys : List Char, c ∉ xs → find_substr [c] (xs ++ c :: ys) = some xs.length := by
  intro xs
  induction xs with
  | nil => intro ys _; simp [find_substr, isPrefixOf_singleton]
  | cons a as ih =>
    intro ys h
    have hca : c ≠ a := fun hc => h (hc ▸ List.mem_cons_self a as)
    have has : c ∉ as := fun hc => h (List.mem_cons_of_mem a hc)
    simp [find_substr, isPrefixOf_singleton, hca, ih ys has]

theorem data_long_token (name value : String) :
    ("--" ++ name ++ "=" ++ value).data =
      ('-' :: '-' :: name.data) ++ '=' :: value.data := by
  simp [String.data_append]

theorem data_long_specifier (name : String) :
    ("--" ++ name).data = '-' :: '-' :: name.data := by
  simp [String.data_append]

theorem string_ne_of_length_ne (a b : String) (h : a.data.length ≠ b.data.length) :
    a ≠ b := by
  intro he
  exact h (by rw [he])

/-- Splitting a defaulted-configuration long-option token carrying an
assignment: parse_argument hands the specifier, the attached argument and the
assignment flag to the dispatch. -/
theorem parse_argument_long_assign (gs : List option_group) (name value : String)
    (h1 : name ≠ "") (h2 : '=' ∉ name.data) :
    parse_argument (dparser gs) ("--" ++ name ++ "=" ++ value) =
      parse_specifier (dparser gs) ("--" ++ name ++ "=" ++ value)
        ("--" ++ name) value true := by
  have hxs : '=' ∉ ('-' :: '-' :: name.data) := by
    simp only [List.mem_cons, not_or]
    exact ⟨by decide, by decide, h2⟩
  have hfind :
      find_substr ['='] (('-' :: '-' :: name.data) ++ '=' :: value.data) =
        some ('-' :: '-' :: name.data).length :=
    find_substr_first '=' _ value.data hxs
  have hne : ("--" ++ name ++ "=" ++ value) ≠ "--" := by
    apply string_ne_of_length_ne
    rw [data_long_token]
    simp
  have htake :
      (('-' :: '-' :: name.data) ++ '=' :: value.data).take
          ('-' :: '-' :: name.data).length = '-' :: '-' :: name.data :=
    List.take_left _ _
  have hdrop :
      (('-' :: '-' :: name.data) ++ '=' :: value.data).drop
          (('-' :: '-' :: name.data).length + 1) = value.data := by
    have : ('-' :: '-' :: name.data) ++ '=' :: value.data =
        (('-' :: '-' :: name.data) ++ ['=']) ++ value.data := by simp
    rw [this]
    apply List.drop_left'
    simp
  have hspec1 : String.mk ('-' :: '-' :: name.data) = "--" ++ name := by
    rw [← data_long_specifier, mk_data]
  have hs : String.mk ('-' :: '-' :: name.data) ≠ "-" := by
    apply string_ne_of_length_ne
    simp
  have hl : String.mk ('-' :: '-' :: name.data) ≠ "--" := by
    intro he
    apply h1
    have hd : ('-' :: '-' :: name.data) = ['-', '-'] := by
      have := congrArg String.data he
      simpa using this
    have hnil : name.data = [] := by simpa using hd
    rw [← mk_data name, hnil]
  unfold parse_argument
  rw [if_neg (by simp [is_end_indicator, dparser]; exact hne)]
  have heq : (dparser gs).m_equals.data = ['='] := rfl
  rw [heq, data_long_token, hfind]
  simp only [htake]
  rw [if_neg (by
    simp only [dparser]
    intro hor
    rcases hor with h | h
    · exact hs h
    · exact hl h)]
  rw [hspec1]
  have hlen : ('-' :: '-' :: name.data).length + (['='] : List Char).length =
      ('-' :: '-' :: name.data).length + 1 := rfl
  rw [hlen, hdrop, mk_data]

theorem data_ne_nil (s : String) (h : s ≠ "") : s.data ≠ [] := by
  intro hd
  apply h
  rw [← mk_data s, hd]

/-- Splitting a defaulted-configuration long-option token with no assignment
separator anywhere in it. -/
theorem parse_argument_long_noassign (gs : List option_group) (name : String)
    (h1 : name ≠ "") (h2 : '=' ∉ name.data) :
    parse_argument (dparser gs) ("--" ++ name) =
      parse_specifier (dparser gs) ("--" ++ name) ("--" ++ name) "" false := by
  have hxs : '=' ∉ ('-' :: '-' :: name.data) := by
    simp only [List.mem_cons, not_or]
    exact ⟨by decide, by decide, h2⟩
  have hne : ("--" ++ name) ≠ "--" := by
    intro he
    apply h1
    have hd : ('-' :: '-' :: name.data) = ['-', '-'] := by
      have := congrArg String.data he
      rw [data_long_specifier] at this
      simpa using this
    have hnil : name.data = [] := by simpa using hd
    rw [← mk_data name, hnil]
  unfold parse_argument
  rw [if_neg (by simp [is_end_indicator, dparser]; exact hne)]
  have heq : (dparser gs).m_equals.data = ['='] := rfl
  rw [heq, data_long_specifier, find_substr_not_mem '=' _ hxs]

theorem is_long_option_dd (gs : List option_group) (name : String) (h1 : name ≠ "") :
    is_long_option (dparser gs) ("--" ++ name) = true := by
  have hnil : name.data ≠ [] := data_ne_nil name h1
  have hlen : 0 < name.data.length := List.length_pos.mpr hnil
  simp [is_long_option, dparser, data_long_specifier, List.isPrefixOf]
  exact hlen

theorem long_name_drop (gs : List option_group) (name : String) :
    String.mk (("--" ++ name).data.drop
      (parser.m_long_option_pfx (dparser gs)).data.length) = name := by
  rw [data_long_specifier]
  exact mk_data name

/-- Dispatch of a long-option specifier whose name is not registered
(parser.cpp lines 364-367). -/
theorem parse_specifier_long_unknown (gs : List option_group) (orig name arg : String)
    (af : Bool) (h1 : name ≠ "")
    (hf : parser.find_option_long (dparser gs) name = none) :
    parse_specifier (dparser gs) orig ("--" ++ name) arg af =
      ([], .error { kind := .invalid_option, fn_name := fn_parse_argument,
                    option_text := "--" ++ name }) := by
  unfold parse_specifier
  rw [if_pos (is_long_option_dd gs name h1)]
  rw [long_name_drop gs name]
  simp only [hf]

/-- Dispatch of a registered argument-taking long option with an attached
assignment (parser.cpp lines 377-395). -/
theorem parse_specifier_long_assign_witharg (gs : List option_group)
    (orig name arg : String) (o : option) (h1 : name ≠ "")
    (hf : parser.find_option_long (dparser gs) name = some o)
    (ha : o.argument_name ≠ "") :
    parse_specifier (dparser gs) orig ("--" ++ name) arg true =
      (match write_option_argument (long_option_entry orig ("--" ++ name) name o arg) with
       | .error e => ([], .error e)
       | .ok evs =>
         (evs ++ write_bool_events o,
          .ok ([long_option_entry orig ("--" ++ name) name o arg], .no_arg))) := by
  unfold parse_specifier
  rw [if_pos (is_long_option_dd gs name h1)]
  rw [long_name_drop gs name]
  simp only [hf]
  simp [ha]

/-- Dispatch of a registered argument-taking long option with no assignment:
the required/optional classification is reported (parser.cpp lines
372-376). -/
theorem parse_specifier_long_noassign_witharg (gs : List option_group)
    (orig name : String) (o : option) (h1 : name ≠ "")
    (hf : parser.find_option_long (dparser gs) name = some o)
    (ha : o.argument_name ≠ "") :
    parse_specifier (dparser gs) orig ("--" ++ name) "" false =
      (write_bool_events o,
       .ok ([long_option_entry orig ("--" ++ name) name o ""],
            if o.arg_required then .arg_required else .arg_optional)) := by
  unfold parse_specifier
  rw [if_pos (is_long_option_dd gs name h1)]
  rw [long_name_drop gs name]
  simp only [hf]
  simp [ha]

/-- Dispatch of a registered no-argument long option with an attached
assignment: the argument-not-accepted error (parser.cpp lines 381-385). -/
theorem parse_specifier_long_assign_noarg (gs : List option_group)
    (orig name arg : String) (o : option) (h1 : name ≠ "")
    (hf : parser.find_option_long (dparser gs) name = some o)
    (ha : o.argument_name = "") :
    parse_specifier (dparser gs) orig ("--" ++ name) arg true =
      ([], .error { kind := .arg_not_accepted, fn_name := fn_parse_argument,
                    option_text := "--" ++ name }) := by
  unfold parse_specifier
  rw [if_pos (is_long_option_dd gs name h1)]
  rw [long_name_drop gs name]
  simp only [hf]
  simp [ha]

theorem data_short_token (cs : List Char) : ("-" ++ String.mk cs).data = '-' :: cs := by
  simp [String.data_append]

theorem data_short_assign_token (cs : List Char) (value : String) :
    ("-" ++ String.mk cs ++ "=" ++ value).data = ('-' :: cs) ++ '=' :: value.data := by
  simp [String.data_append]

theorem short_head_facts (gs : List option_group) (cs : List Char)
    (h1 : cs ≠ []) (h3 : cs.head? ≠ some '-') :
    is_long_option (dparser gs) ("-" ++ String.mk cs) = false
      ∧ is_short_option_group (dparser gs) ("-" ++ String.mk cs) = true
      ∧ ("-" ++ String.mk cs) ≠ "--" := by
  cases cs with
  | nil => exact absurd rfl h1
  | cons a l =>
    have hha : a ≠ '-' := by
      intro he
      exact h3 (by simp [he])
    refine ⟨?_, ?_, ?_⟩
    · simp [is_long_option, dparser, data_short_token, List.isPrefixOf]
      exact fun h => absurd h.symm hha
    · simp [is_short_option_group, dparser, data_short_token, List.isPrefixOf]
    · intro he
      have hd := congrArg String.data he
      rw [data_short_token] at hd
      have hd2 : a = '-' ∧ l = [] := by simpa using hd
      exact hha hd2.1

/-- Splitting a defaulted-configuration short-option-cluster token with no
assignment separator: the cluster characters go to the cluster scan. -/
theorem parse_argument_short_noassign (gs : List option_group) (cs : List Char)
    (h1 : cs ≠ []) (h2 : '=' ∉ cs) (h3 : cs.head? ≠ some '-') :
    parse_argument (dparser gs) ("-" ++ String.mk cs) =
      parse_short_option_group (dparser gs) cs "" false := by
  obtain ⟨hlo, hso, hne⟩ := short_head_facts gs cs h1 h3
  have hxs : '=' ∉ ('-' :: cs) := by
    simp only [List.mem_cons, not_or]
    exact ⟨by decide, h2⟩
  unfold parse_argument
  rw [if_neg (by simp [is_end_indicator, dparser]; exact hne)]
  have heq : (dparser gs).m_equals.data = ['='] := rfl
  rw [heq, data_short_token, find_substr_not_mem '=' _ hxs]
  unfold parse_specifier
  simp only [hlo, hso, Bool.false_eq_true, if_false, if_true, data_short_token]
  rfl

/-- Splitting a defaulted-configuration short-option-cluster token that
carries an assignment: the cluster characters and the attached value go to
the cluster scan with the assignment flag set. -/
theorem parse_argument_short_assign (gs : List option_group) (cs : List Char)
    (value : String) (h1 : cs ≠ []) (h2 : '=' ∉ cs) (h3 : cs.head? ≠ some '-') :
    parse_argument (dparser gs) ("-" ++ String.mk cs ++ "=" ++ value) =
      parse_short_option_group (dparser gs) cs value true := by
  obtain ⟨hlo, hso, hne⟩ := short_head_facts gs cs h1 h3
  have hcs : 0 < cs.length := List.length_pos.mpr h1
  have hxs : '=' ∉ ('-' :: cs) := by
    simp only [List.mem_cons, not_or]
    exact ⟨by decide, h2⟩
  have hmk : String.mk ('-' :: cs) = "-" ++ String.mk cs := by
    rw [← data_short_token, mk_data]
  have hnet : ("-" ++ String.mk cs ++ "=" ++ value) ≠ "--" := by
    apply string_ne_of_length_ne
    rw [data_short_assign_token]
    simp
    omega
  have hfind :
      find_substr ['='] (('-' :: cs) ++ '=' :: value.data) = some ('-' :: cs).length :=
    find_substr_first '=' _ value.data hxs
  have htake :
      (('-' :: cs) ++ '=' :: value.data).take ('-' :: cs).length = '-' :: cs :=
    List.take_left _ _
  have hdrop :
      (('-' :: cs) ++ '=' :: value.data).drop (('-' :: cs).length + 1) = value.data := by
    have hsplit : ('-' :: cs) ++ '=' :: value.data =
        (('-' :: cs) ++ ['=']) ++ value.data := by simp
    rw [hsplit]
    apply List.drop_left'
    simp
  have hs1 : String.mk ('-' :: cs) ≠ "-" := by
    apply string_ne_of_length_ne
    simp [h1]
  unfold parse_argument
  rw [if_neg (by simp [is_end_indicator, dparser]; exact hnet)]
  have heq : (dparser gs).m_equals.data = ['='] := rfl
  rw [heq, data_short_assign_token, hfind]
  simp only [htake]
  rw [if_neg (by
    simp only [dparser]
    intro hor
    rcases hor with h | h
    · exact hs1 h
    · exact absurd (hmk ▸ h) hne)]
  have hlen1 : ('-' :: cs).length + (['='] : List Char).length =
      ('-' :: cs).length + 1 := rfl
  rw [hlen1, hdrop, mk_data, hmk]
  unfold parse_specifier
  simp only [hlo, hso, Bool.false_eq_true, if_false, if_true, data_short_token]
  rfl

/-- Scanning a short-option cluster across a leading run of characters that
all resolve to no-argument options: each produces its base entry and its
presence-flag write, and the scan continues with the remaining characters
(parser.cpp lines 413-431 and 466-477). -/
theorem short_group_noarg_skip (p : parser) (argument : String) (has_arg : Bool)
    (cs₁ : List Char) :
    ∀ rest : List Char,
      (∀ c' ∈ cs₁, ∃ o', parser.find_option_short p c' = some o' ∧ o'.argument_name = "") →
      rest ≠ [] →
      ∃ fes es₁,
        parse_short_option_group p (cs₁ ++ rest) argument has_arg =
          (fes ++ (parse_short_option_group p rest argument has_arg).1,
           match (parse_short_option_group p rest argument has_arg).2 with
           | .error e => .error e
           | .ok (es, ty) => .ok (es₁ ++ es, ty)) ∧
        List.Forall₂
          (fun e c' => e.argument = "" ∧ e.short_name = c' ∧ e.is_option = true)
          es₁ cs₁ := by
  induction cs₁ with
  | nil =>
    intro rest _ _
    refine ⟨[], [], ?_, List.Forall₂.nil⟩
    rcases hX : parse_short_option_group p rest argument has_arg with ⟨evsR, resR⟩
    simp only [List.nil_append, hX]
    cases resR with
    | error e => simp
    | ok pr =>
      rcases pr with ⟨es, ty⟩
      simp
  | cons c cs₁ ih =>
    intro rest h hrest
    obtain ⟨o, hfo, hano⟩ := h c (List.mem_cons_self c cs₁)
    have hsub : ∀ c' ∈ cs₁, ∃ o', parser.find_option_short p c' = some o'
        ∧ o'.argument_name = "" :=
      fun c' hc' => h c' (List.mem_cons_of_mem c hc')
    obtain ⟨fes', es₁', heq, hfa⟩ := ih rest hsub hrest
    refine ⟨write_bool_events o ++ fes', short_base_entry p o c :: es₁', ?_, ?_⟩
    · rw [List.cons_append]
      rw [parse_short_option_group]
      simp only [hfo, hano, ne_eq, not_true_eq_false, if_false,
        List.append_eq_nil, hrest, and_false, false_and, if_true, heq]
      rcases hX : parse_short_option_group p rest argument has_arg with ⟨evsR, resR⟩
      cases resR with
      | error e => simp
      | ok pr =>
        rcases pr with ⟨es, ty⟩
        simp
    · exact List.Forall₂.cons ⟨rfl, rfl, rfl⟩ hfa

/-- A cluster character that resolves to an argument-taking option and is not
last: the remainder of the cluster becomes the argument and the scan stops
(parser.cpp lines 434-447). -/
theorem short_group_argchar_cluster (p : parser) (c : Char) (rest : List Char)
    (argument : String) (has_arg : Bool) (o : option)
    (hfo : parser.find_option_short p c = some o)
    (ha : o.argument_name ≠ "") (hr : rest ≠ []) :
    parse_short_option_group p (c :: rest) argument has_arg =
      (match write_option_argument (short_cluster_entry p o c rest argument has_arg) with
       | .error err => (write_bool_events o, .error err)
       | .ok evs =>
         (write_bool_events o ++ evs,
          .ok ([short_cluster_entry p o c rest argument has_arg], .no_arg))) := by
  rw [parse_short_option_group]
  simp only [hfo, ha, ne_eq, not_false_eq_true, if_true, hr, if_false]

/-- An unknown cluster character raises invalid_option naming just that
character with the short prefix re-attached (parser.cpp lines 415-421). -/
theorem short_group_unknown_head (p : parser) (c : Char) (rest : List Char)
    (argument : String) (has_arg : Bool)
    (hfo : parser.find_option_short p c = none) :
    parse_short_option_group p (c :: rest) argument has_arg =
      ([], .error { kind := .invalid_option, fn_name := fn_short_group,
                    option_text := parser.m_short_option_pfx p ++ c.toString }) := by
  rw [parse_short_option_group]
  simp only [hfo]

/-- A final no-argument cluster character with a dangling assignment raises
arg_not_accepted, after its presence flag was already written (parser.cpp
lines 431 and 466-472). -/
theorem short_group_noarg_dangling (p : parser) (c : Char) (argument : String)
    (o : option) (hfo : parser.find_option_short p c = some o)
    (ha : o.argument_name = "") :
    parse_short_option_group p [c] argument true =
      (write_bool_events o,
       .error { kind := .arg_not_accepted, fn_name := fn_short_group,
                option_text := parser.m_short_option_pfx p ++ c.toString }) := by
  rw [parse_short_option_group]
  simp [hfo, ha]

/-- C1: in a short-option cluster, a character resolving to an argument-taking
option that is not the last character consumes every remaining character plus
any attached assignment value (assignment separator included) as that
argument of that option, and scanning of the token stops there: the entries are one
empty-argument entry per preceding no-argument character followed by exactly
one entry for the argument-taking character, whose argument is the cluster
remainder plus the attached assignment; the returned no_arg classification
means no further token is consumed for this cluster.  Instantiated at
`-abVALUE` by the witness: entries `a` (empty argument) then `b` with
argument `VALUE`. -/
theorem c1_cluster_argument_consumption (p : parser) (cs₁ : List Char) (c : Char)
    (cs₂ : List Char) (argument : String) (has_arg : Bool) (o : option)
    (h₁ : ∀ c' ∈ cs₁, ∃ o', parser.find_option_short p c' = some o'
        ∧ o'.argument_name = "")
    (h₂ : parser.find_option_short p c = some o)
    (h₃ : o.argument_name ≠ "") (h₄ : cs₂ ≠ [])
    (h₅ : o.has_bound_arg = false ∨ o.argument_type = .string_arg) :
    ∃ evs es₁,
      parse_short_option_group p (cs₁ ++ c :: cs₂) argument has_arg =
        (evs, .ok (es₁ ++ [short_cluster_entry p o c cs₂ argument has_arg], .no_arg)) ∧
      List.Forall₂
        (fun e c' => e.argument = "" ∧ e.short_name = c' ∧ e.is_option = true) es₁ cs₁ ∧
      (short_cluster_entry p o c cs₂ argument has_arg).argument =
        String.mk cs₂ ++ (if has_arg then parser.m_equals p ++ argument else "") := by
  have hw : ∃ wevs,
      write_option_argument (short_cluster_entry p o c cs₂ argument has_arg) = .ok wevs := by
    cases hb : o.has_bound_arg with
    | false =>
      exact ⟨[], by simp [write_option_argument, short_cluster_entry, short_base_entry, hb]⟩
    | true =>
      have hs : o.argument_type = .string_arg := by
        rcases h₅ with hb' | hs'
        · rw [hb] at hb'
          exact absurd hb' (by simp)
        · exact hs'
      refine ⟨[.string_write o.long_name o.short_name
        (short_cluster_entry p o c cs₂ argument has_arg).argument], ?_⟩
      simp [write_option_argument, short_cluster_entry, short_base_entry, hb, hs]
  obtain ⟨wevs, hwe⟩ := hw
  obtain ⟨fes, es₁, heq, hfa⟩ :=
    short_group_noarg_skip p argument has_arg cs₁ (c :: cs₂) h₁ (by simp)
  have hhead := short_group_argchar_cluster p c cs₂ argument has_arg o h₂ h₃ h₄
  rw [hwe] at hhead
  refine ⟨fes ++ (write_bool_events o ++ wevs), es₁, ?_, hfa, rfl⟩
  rw [heq, hhead]

/-- C5: an option declared with no argument (empty argument name) rejects an
attached assignment value with an argument-not-accepted error: for a long
option given as `--opt=value`, and for a short-option cluster whose last
character resolves to a no-argument option while an assignment was attached
to the whole token. -/
theorem c5_no_argument_option_rejects_assignment :
    (∀ (gs : List option_group) (name value : String) (o : option),
      name ≠ "" → '=' ∉ name.data →
      parser.find_option_long (dparser gs) name = some o →
      o.argument_name = "" →
      parse_argument (dparser gs) ("--" ++ name ++ "=" ++ value) =
        ([], .error { kind := .arg_not_accepted, fn_name := fn_parse_argument,
                      option_text := "--" ++ name }))
    ∧ (∀ (gs : List option_group) (cs₁ : List Char) (c : Char) (value : String)
        (o : option),
      (∀ c' ∈ cs₁, ∃ o', parser.find_option_short (dparser gs) c' = some o'
          ∧ o'.argument_name = "") →
      parser.find_option_short (dparser gs) c = some o →
      o.argument_name = "" →
      (cs₁ ++ [c]).head? ≠ some '-' → '=' ∉ cs₁ → c ≠ '=' →
      (parse_argument (dparser gs)
          ("-" ++ String.mk (cs₁ ++ [c]) ++ "=" ++ value)).2 =
        .error { kind := .arg_not_accepted, fn_name := fn_short_group,
                 option_text := "-" ++ c.toString }) := by
  constructor
  · intro gs name value o h1 h2 hf ha
    rw [parse_argument_long_assign gs name value h1 h2]
    exact parse_specifier_long_assign_noarg gs _ name value o h1 hf ha
  · intro gs cs₁ c value o hcs₁ hfo hano hhead heq1 hceq
    have hmem : '=' ∉ cs₁ ++ [c] := by
      simp only [List.mem_append, List.mem_singleton, not_or]
      exact ⟨heq1, fun h => hceq h.symm⟩
    rw [parse_argument_short_assign gs (cs₁ ++ [c]) value (by simp) hmem hhead]
    obtain ⟨fes, es₁, heq, _⟩ :=
      short_group_noarg_skip (dparser gs) value true cs₁ [c] hcs₁ (by simp)
    rw [heq]
    rw [short_group_noarg_dangling (dparser gs) c value o hfo hano]
    simp
    rfl

/-- C6 counterexample: the bare token `-=` does fail, but the error the code
raises is the invalid-option one (parser.cpp lines 348-355 build the message
invalid option: -=), not the invalid-argument-value classification the claim
asserts. -/
theorem c6_counterexample :
    (parse_argument (dparser []) "-=").2 =
      .error { kind := .invalid_option, fn_name := fn_parse_argument,
               option_text := "-=" }
    ∧ error_kind.invalid_option ≠ error_kind.invalid_argument_value := by
  exact ⟨rfl, by decide⟩

/-- C6 amended: a token whose specifier equals exactly the short-option
prefix or the long-option prefix (bare `-=...` or `--=...`) makes the parse
fail with the invalid-option error carrying the prefix plus the assignment
separator as the offending text, and is never treated as a valid option with
empty name. -/
theorem c6_bare_assignment_rejected (gs : List option_group) (rest : String) :
    parse_argument (dparser gs) ("-=" ++ rest) =
      ([], .error { kind := .invalid_option, fn_name := fn_parse_argument,
                    option_text := "-=" })
    ∧ parse_argument (dparser gs) ("--=" ++ rest) =
      ([], .error { kind := .invalid_option, fn_name := fn_parse_argument,
                    option_text := "--=" }) := by
  constructor
  · have hdata : ("-=" ++ rest).data = '-' :: '=' :: rest.data := by
      rw [String.data_append]
      rfl
    have hne : ("-=" ++ rest) ≠ "--" := by
      intro he
      have hd := congrArg String.data he
      rw [hdata] at hd
      rw [show ("--" : String).data = ['-', '-'] from by decide] at hd
      injection hd with h1 h2
      injection h2 with h3 h4
      exact absurd h3 (by decide)
    unfold parse_argument
    rw [if_neg (by simp [is_end_indicator, dparser]; exact hne)]
    have heqd : (dparser gs).m_equals.data = ['='] := rfl
    rw [heqd, hdata]
    have hf : find_substr ['='] ('-' :: '=' :: rest.data) = some 1 :=
      find_substr_first '=' ['-'] rest.data (by decide)
    rw [hf]
    rfl
  · have hdata : ("--=" ++ rest).data = '-' :: '-' :: '=' :: rest.data := by
      rw [String.data_append]
      rfl
    have hne : ("--=" ++ rest) ≠ "--" := by
      intro he
      have hd := congrArg String.data he
      rw [hdata] at hd
      rw [show ("--" : String).data = ['-', '-'] from by decide] at hd
      injection hd with h1 h2
      injection h2 with h3 h4
      exact absurd h4 (by simp)
    unfold parse_argument
    rw [if_neg (by simp [is_end_indicator, dparser]; exact hne)]
    have heqd : (dparser gs).m_equals.data = ['='] := rfl
    rw [heqd, hdata]
    have hf : find_substr ['='] ('-' :: '-' :: '=' :: rest.data) = some 2 :=
      find_substr_first '=' ['-', '-'] rest.data (by decide)
    rw [hf]
    rfl

/-- The argument binder on a bound int-typed long-option entry, unfolded
(parser.cpp lines 290-296 and the catch clauses). -/
theorem write_long_int (orig spec name v : String) (o : option)
    (hb : o.has_bound_arg = true) (ht : o.argument_type = .int_arg) :
    write_option_argument (long_option_entry orig spec name o v) =
      (match stoi v with
       | .error .invalid_argument =>
         .error { kind := .invalid_argument_value, fn_name := fn_write,
                  option_text := spec }
       | .error .out_of_range =>
         .error { kind := .out_of_range, fn_name := fn_write, option_text := spec }
       | .ok (value, pos) =>
         if pos ≠ v.data.length then
           .error { kind := .invalid_argument_value, fn_name := fn_write,
                    option_text := spec }
         else .ok [.int_write o.long_name o.short_name value]) := by
  simp [write_option_argument, long_option_entry, hb, ht]

/-- The argument binder on a bound unsigned-typed long-option entry, unfolded
(parser.cpp lines 278-289 and the catch clauses). -/
theorem write_long_uint (orig spec name v : String) (o : option)
    (hb : o.has_bound_arg = true) (ht : o.argument_type = .uint_arg) :
    write_option_argument (long_option_entry orig spec name o v) =
      (match stoll v with
       | .error .invalid_argument =>
         .error { kind := .invalid_argument_value, fn_name := fn_write,
                  option_text := spec }
       | .error .out_of_range =>
         .error { kind := .out_of_range, fn_name := fn_write, option_text := spec }
       | .ok (value, pos) =>
         if pos ≠ v.data.length then
           .error { kind := .invalid_argument_value, fn_name := fn_write,
                    option_text := spec }
         else if value < 0 then
           .error { kind := .must_not_be_negative, fn_name := fn_write,
                    option_text := spec }
         else if value > 4294967295 then
           .error { kind := .out_of_range, fn_name := fn_write, option_text := spec }
         else .ok [.uint_write o.long_name o.short_name value.toNat]) := by
  simp [write_option_argument, long_option_entry, hb, ht]

/-- C7: for an option registered with a required, bound integer argument,
binding consumes the whole argument string: `--name=42` succeeds and writes
the integer 42 through the bound target; `--name=abc` fails with
invalid-argument-value; `--name=99999999999999999999` fails with the distinct
out-of-range error; and in general any argument string whose integer
conversion stops before the end of the string fails with
invalid-argument-value instead of silently truncating. -/
theorem c7_integer_argument_binding (gs : List option_group) (name : String)
    (o : option) (h1 : name ≠ "") (h2 : '=' ∉ name.data)
    (h3 : parser.find_option_long (dparser gs) name = some o)
    (h4 : o.argument_name ≠ "") (_h5 : o.arg_required = true)
    (h6 : o.argument_type = .int_arg) (h7 : o.has_bound_arg = true) :
    parse_argument (dparser gs) ("--" ++ name ++ "=" ++ "42") =
      ([.int_write o.long_name o.short_name 42] ++ write_bool_events o,
       .ok ([long_option_entry ("--" ++ name ++ "=" ++ "42") ("--" ++ name) name o "42"],
            .no_arg))
    ∧ (parse_argument (dparser gs) ("--" ++ name ++ "=" ++ "abc")).2 =
        .error { kind := .invalid_argument_value, fn_name := fn_write,
                 option_text := "--" ++ name }
    ∧ (parse_argument (dparser gs)
          ("--" ++ name ++ "=" ++ "99999999999999999999")).2 =
        .error { kind := .out_of_range, fn_name := fn_write,
                 option_text := "--" ++ name }
    ∧ (∀ (s : String) (v : Int) (pos : Nat),
        stoi s = .ok (v, pos) → pos ≠ s.data.length →
        (parse_argument (dparser gs) ("--" ++ name ++ "=" ++ s)).2 =
          .error { kind := .invalid_argument_value, fn_name := fn_write,
                   option_text := "--" ++ name }) := by
  refine ⟨?_, ?_, ?_, ?_⟩
  · rw [parse_argument_long_assign gs name "42" h1 h2,
      parse_specifier_long_assign_witharg gs _ name "42" o h1 h3 h4,
      write_long_int _ _ name "42" o h7 h6]
    rfl
  · rw [parse_argument_long_assign gs name "abc" h1 h2,
      parse_specifier_long_assign_witharg gs _ name "abc" o h1 h3 h4,
      write_long_int _ _ name "abc" o h7 h6]
    rfl
  · rw [parse_argument_long_assign gs name "99999999999999999999" h1 h2,
      parse_specifier_long_assign_witharg gs _ name "99999999999999999999" o h1 h3 h4,
      write_long_int _ _ name "99999999999999999999" o h7 h6]
    rfl
  · intro s v pos hst hpos
    rw [parse_argument_long_assign gs name s h1 h2,
      parse_specifier_long_assign_witharg gs _ name s o h1 h3 h4,
      write_long_int _ _ name s o h7 h6, hst]
    have hpos2 : ¬ pos = s.length := hpos
    simp [hpos2]

/-- C8: for an option with a bound unsigned-integer argument, a negative
value that converts and consumes the whole string fails with the dedicated
must-not-be-negative error, and a value exceeding the 32-bit unsigned range
fails with the distinct out-of-range error; both kinds are distinct from the
not-a-number (invalid-argument-value) kind. -/
theorem c8_unsigned_argument_errors (gs : List option_group) (name : String)
    (o : option) (h1 : name ≠ "") (h2 : '=' ∉ name.data)
    (h3 : parser.find_option_long (dparser gs) name = some o)
    (h4 : o.argument_name ≠ "")
    (h6 : o.argument_type = .uint_arg) (h7 : o.has_bound_arg = true) :
    (∀ (s : String) (v : Int) (pos : Nat),
      stoll s = .ok (v, pos) → pos = s.data.length → v < 0 →
      (parse_argument (dparser gs) ("--" ++ name ++ "=" ++ s)).2 =
        .error { kind := .must_not_be_negative, fn_name := fn_write,
                 option_text := "--" ++ name })
    ∧ (∀ (s : String) (v : Int) (pos : Nat),
      stoll s = .ok (v, pos) → pos = s.data.length → v > 4294967295 →
      (parse_argument (dparser gs) ("--" ++ name ++ "=" ++ s)).2 =
        .error { kind := .out_of_range, fn_name := fn_write,
                 option_text := "--" ++ name })
    ∧ error_kind.must_not_be_negative ≠ error_kind.invalid_argument_value
    ∧ error_kind.out_of_range ≠ error_kind.invalid_argument_value := by
  refine ⟨?_, ?_, by decide, by decide⟩
  · intro s v pos hst hpos hneg
    rw [parse_argument_long_assign gs name s h1 h2,
      parse_specifier_long_assign_witharg gs _ name s o h1 h3 h4,
      write_long_uint _ _ name s o h7 h6, hst]
    simp [hpos, hneg]
  · intro s v pos hst hpos hbig
    have hnneg : ¬ v < 0 := by omega
    rw [parse_argument_long_assign gs name s h1 h2,
      parse_specifier_long_assign_witharg gs _ name s o h1 h3 h4,
      write_long_uint _ _ name s o h7 h6, hst]
    simp [hpos, hnneg, hbig]

/-- C9: a failing parse can still have written through a bound write target.
In the short-option cluster path the presence flag is written before the
attached argument is converted, so when the conversion fails the trace still
holds the flag write; in the long-option path the argument is converted
before the flag is written, so a failed conversion leaves an empty trace. -/
theorem c9_bound_flag_write_order :
    (∀ (p : parser) (c : Char) (o : option) (rest : List Char) (argument : String)
        (has_arg : Bool) (err : parse_error),
      parser.find_option_short p c = some o → o.argument_name ≠ "" →
      o.has_bound_flag = true → rest ≠ [] →
      write_option_argument (short_cluster_entry p o c rest argument has_arg) =
        .error err →
      parse_short_option_group p (c :: rest) argument has_arg =
        ([.bool_write o.long_name o.short_name true], .error err))
    ∧ (∀ (gs : List option_group) (name value : String) (o : option)
        (err : parse_error),
      name ≠ "" → '=' ∉ name.data →
      parser.find_option_long (dparser gs) name = some o →
      o.argument_name ≠ "" →
      write_option_argument
        (long_option_entry ("--" ++ name ++ "=" ++ value) ("--" ++ name) name o value) =
        .error err →
      parse_argument (dparser gs) ("--" ++ name ++ "=" ++ value) =
        ([], .error err)) := by
  constructor
  · intro p c o rest argument has_arg err hfo ha hbf hr hw
    rw [short_group_argchar_cluster p c rest argument has_arg o hfo ha hr, hw]
    simp [write_bool_events, hbf]
  · intro gs name value o err h1 h2 h3 h4 hw
    rw [parse_argument_long_assign gs name value h1 h2,
      parse_specifier_long_assign_witharg gs _ name value o h1 h3 h4, hw]


/-- find_option walks groups in order and inside each group in insertion
order, so it returns the first match of the flattened registry. -/
theorem find_long_flat (gs : List option_group) (n : String) :
    find_in_groups_long gs n =
      (gs.flatMap (fun g => g.options)).find? (fun o => o.long_name == n) := by
  induction gs with
  | nil => rfl
  | cons g gs ih =>
    have hb : (g :: gs).flatMap (fun g => g.options) =
        g.options ++ gs.flatMap (fun g => g.options) := rfl
    rw [hb, List.find?_append]
    show (match option_group.find_long g n with
          | some o => some o
          | none => find_in_groups_long gs n) = _
    cases hg : option_group.find_long g n with
    | some o =>
      unfold option_group.find_long at hg
      simp [hg]
    | none =>
      unfold option_group.find_long at hg
      simp [hg, ih]

/-- Registering an option through add_option makes it visible to long-name
lookup whenever the name was previously unregistered. -/
theorem find_long_after_add (gs : List option_group) (n : String) (o : option)
    (h : find_in_groups_long gs n = none) (ho : o.long_name = n) :
    find_in_groups_long (add_to_default_group gs o) n = some o := by
  induction gs with
  | nil =>
    show (match option_group.find_long { name := "", options := [o] } n with
          | some x => some x
          | none => find_in_groups_long [] n) = some o
    simp [option_group.find_long, ho]
  | cons g gs ih =>
    have hstep : (match option_group.find_long g n with
          | some x => some x
          | none => find_in_groups_long gs n) = none := h
    cases hg : option_group.find_long g n with
    | some x =>
      rw [hg] at hstep
      exact absurd hstep (by simp)
    | none =>
      rw [hg] at hstep
      by_cases hname : g.name = ""
      · have hadd : add_to_default_group (g :: gs) o =
            { g with options := g.options ++ [o] } :: gs := by
          simp [add_to_default_group, hname]
        rw [hadd]
        show (match option_group.find_long { g with options := g.options ++ [o] } n with
              | some x => some x
              | none => find_in_groups_long gs n) = some o
        have hfound : option_group.find_long { g with options := g.options ++ [o] } n =
            some o := by
          unfold option_group.find_long at hg ⊢
          simp only [List.find?_append, hg]
          simp [ho]
        rw [hfound]
      · have hadd : add_to_default_group (g :: gs) o =
            g :: add_to_default_group gs o := by
          simp [add_to_default_group, hname]
        rw [hadd]
        show (match option_group.find_long g n with
              | some x => some x
              | none => find_in_groups_long (add_to_default_group gs o) n) = some o
        rw [hg]
        exact ih hstep

/-- Registering through add_to_default_group puts the option in a group
named "". -/
theorem add_mem_default_group (gs : List option_group) (o : option) :
    ∃ g ∈ add_to_default_group gs o, g.name = "" ∧ o ∈ g.options := by
  induction gs with
  | nil => exact ⟨{ name := "", options := [o] }, by simp [add_to_default_group]⟩
  | cons g gs ih =>
    by_cases hname : g.name = ""
    · refine ⟨{ g with options := g.options ++ [o] }, ?_, hname, by simp⟩
      simp [add_to_default_group, hname]
    · obtain ⟨g2, hmem, hg2⟩ := ih
      refine ⟨g2, ?_, hg2⟩
      simp [add_to_default_group, hname]
      right
      exact hmem


/-- C10: subscripting the parser never fails and mutates on a miss.  For an
unregistered long (or short) name, operator[] registers a fresh default
option carrying that name, placed in the ""-named default group, and returns
it, after which lookup finds it; for a registered name it returns the first
matching descriptor in group order (lookup is exactly the first match of the
flattened group-ordered registry). -/
theorem c10_subscript_lookup_or_register :
    (∀ (p : parser) (n : String) (o : option),
      parser.find_option_long p n = some o → parser.subscript_long p n = (p, o))
    ∧ (∀ (p : parser) (n : String),
      parser.find_option_long p n = none →
      parser.subscript_long p n =
          (parser.add_option p { long_name := n }, { long_name := n })
        ∧ parser.find_option_long (parser.subscript_long p n).1 n =
            some { long_name := n }
        ∧ ∃ g ∈ (parser.subscript_long p n).1.m_groups,
            g.name = "" ∧ ({ long_name := n } : option) ∈ g.options)
    ∧ (∀ (p : parser) (n : String),
      parser.find_option_long p n =
        (p.m_groups.flatMap (fun g => g.options)).find? (fun o => o.long_name == n))
    ∧ (∀ (p : parser) (c : Char) (o : option),
      parser.find_option_short p c = some o → parser.subscript_short p c = (p, o))
    ∧ (∀ (p : parser) (c : Char),
      parser.find_option_short p c = none →
      parser.subscript_short p c =
        (parser.add_option p { short_name := c }, { short_name := c })) := by
  refine ⟨?_, ?_, ?_, ?_, ?_⟩
  · intro p n o h
    simp [parser.subscript_long, h]
  · intro p n h
    have hsub : parser.subscript_long p n =
        (parser.add_option p { long_name := n }, { long_name := n }) := by
      simp [parser.subscript_long, h]
    refine ⟨hsub, ?_, ?_⟩
    · rw [hsub]
      exact find_long_after_add p.m_groups n { long_name := n } h rfl
    · rw [hsub]
      exact add_mem_default_group p.m_groups { long_name := n }
  · intro p n
    exact find_long_flat p.m_groups n
  · intro p c o h
    simp [parser.subscript_short, h]
  · intro p c h
    simp [parser.subscript_short, h]


/-- A final argument-taking cluster character: an attached assignment binds
immediately, otherwise the required/optional classification is reported
(parser.cpp lines 448-463). -/
theorem short_group_arglast (p : parser) (c : Char) (argument : String)
    (has_arg : Bool) (o : option)
    (hfo : parser.find_option_short p c = some o) (ha : o.argument_name ≠ "") :
    parse_short_option_group p [c] argument has_arg =
      (if has_arg then
        (match write_option_argument (short_last_entry p o c argument) with
         | .error err => (write_bool_events o, .error err)
         | .ok evs =>
           (write_bool_events o ++ evs, .ok ([short_last_entry p o c argument], .no_arg)))
      else if o.arg_required then
        (write_bool_events o, .ok ([short_base_entry p o c], .arg_required))
      else (write_bool_events o, .ok ([short_base_entry p o c], .arg_optional))) := by
  rw [parse_short_option_group]
  simp only [hfo, ha, ne_eq, not_false_eq_true, if_true]

/-- A non-final no-argument cluster character: record the entry and the flag
write, then continue with the remaining characters (parser.cpp lines 466-477
when the dangling-assignment check does not fire). -/
theorem short_group_noarg_head (p : parser) (c : Char) (rest : List Char)
    (argument : String) (has_arg : Bool) (o : option)
    (hfo : parser.find_option_short p c = some o) (ha : o.argument_name = "")
    (hnd : ¬(rest = [] ∧ has_arg = true)) :
    parse_short_option_group p (c :: rest) argument has_arg =
      (match parse_short_option_group p rest argument has_arg with
       | (evs, .error err) => (write_bool_events o ++ evs, .error err)
       | (evs, .ok (es, ty)) =>
         (write_bool_events o ++ evs, .ok (short_base_entry p o c :: es, ty))) := by
  rw [parse_short_option_group]
  simp only [hfo, ha, ne_eq, not_true_eq_false, if_false]
  rw [if_neg hnd]

/-- The cluster scan never produces the end-of-options classification. -/
theorem short_group_ty_not_end (p : parser) (cs : List Char) (argument : String)
    (has_arg : Bool) :
    ∀ evs es, parse_short_option_group p cs argument has_arg ≠
      (evs, .ok (es, .end_indicator)) := by
  induction cs with
  | nil =>
    intro evs es h
    simp [parse_short_option_group] at h
  | cons c rest ih =>
    intro evs es h
    rcases hf : parser.find_option_short p c with _ | o
    · rw [short_group_unknown_head p c rest argument has_arg hf] at h
      exact absurd h (by simp)
    · by_cases ha : o.argument_name = ""
      · by_cases hnd : rest = [] ∧ has_arg = true
        · obtain ⟨hr, hh⟩ := hnd
          subst hr
          subst hh
          rw [short_group_noarg_dangling p c argument o hf ha] at h
          exact absurd h (by simp)
        · rw [short_group_noarg_head p c rest argument has_arg o hf ha hnd] at h
          rcases hrec : parse_short_option_group p rest argument has_arg with ⟨evs2, res2⟩
          rw [hrec] at h
          cases res2 with
          | error e => exact absurd h (by simp)
          | ok pr =>
            rcases pr with ⟨es2, ty2⟩
            simp only [Prod.mk.injEq, Except.ok.injEq] at h
            exact ih evs2 es2 (by rw [hrec, h.2.2])
      · by_cases hr : rest = []
        · subst hr
          rw [short_group_arglast p c argument has_arg o hf ha] at h
          by_cases hh : has_arg = true
          · rw [if_pos hh] at h
            rcases hw : write_option_argument (short_last_entry p o c argument)
              with e | evs2 <;> rw [hw] at h <;> exact absurd h (by simp)
          · rw [if_neg hh] at h
            by_cases hq : o.arg_required = true
            · rw [if_pos hq] at h
              exact absurd h (by simp)
            · rw [if_neg hq] at h
              exact absurd h (by simp)
        · rw [short_group_argchar_cluster p c rest argument has_arg o hf ha hr] at h
          rcases hw : write_option_argument (short_cluster_entry p o c rest argument has_arg)
            with e | evs2 <;> rw [hw] at h <;> exact absurd h (by simp)

/-- The specifier dispatch never produces the end-of-options classification. -/
theorem parse_specifier_ty_not_end (p : parser) (argument spec oarg : String)
    (af : Bool) (evs : List write_event) (es : List parsed_entry) :
    parse_specifier p argument spec oarg af ≠ (evs, .ok (es, .end_indicator)) := by
  intro h
  unfold parse_specifier at h
  by_cases hlo : is_long_option p spec = true
  · rw [if_pos hlo] at h
    rcases hf : parser.find_option_long p
        (String.mk (spec.data.drop (parser.m_long_option_pfx p).data.length))
      with _ | o <;> simp only [hf] at h
    · exact absurd h (by simp)
    · by_cases ha : o.argument_name = ""
      · simp only [ha, ne_eq, not_true_eq_false, if_false] at h
        by_cases haf : af = true
        · rw [if_pos haf] at h
          exact absurd h (by simp)
        · rw [if_neg haf] at h
          exact absurd h (by simp)
      · simp only [ha, ne_eq, not_false_eq_true, if_true] at h
        by_cases haf : af = true
        · rw [if_pos haf] at h
          rcases hw : write_option_argument (long_option_entry argument spec
              (String.mk (spec.data.drop (parser.m_long_option_pfx p).data.length)) o
              (if af = true then oarg else "")) with e | evs2 <;> rw [hw] at h
          · exact absurd h (by simp)
          · simp only [Prod.mk.injEq, Except.ok.injEq] at h
            rcases h with ⟨-, -, hty⟩
            rw [if_pos haf] at hty
            exact absurd hty (by simp)
        · rw [if_neg haf] at h
          simp only [Prod.mk.injEq, Except.ok.injEq] at h
          rcases h with ⟨-, -, hty⟩
          rw [if_neg haf] at hty
          by_cases hq : o.arg_required = true
          · rw [if_pos hq] at hty
            exact absurd hty (by simp)
          · rw [if_neg hq] at hty
            exact absurd hty (by simp)
  · rw [if_neg hlo] at h
    by_cases hso : is_short_option_group p spec = true
    · rw [if_pos hso] at h
      exact short_group_ty_not_end p _ oarg af evs es h
    · rw [if_neg hso] at h
      exact absurd h (by simp)

/-- parse_argument classifies a token as end-of-options only when the token
is exactly the configured indicator (parser.cpp lines 329-333 together with
the dispatch). -/
theorem parse_argument_ty_end (p : parser) (t : String) (evs : List write_event)
    (es : List parsed_entry) :
    parse_argument p t = (evs, .ok (es, .end_indicator)) → t = p.m_end_of_options := by
  intro h
  by_cases he : is_end_indicator p t = true
  · simpa [is_end_indicator] using he
  · exfalso
    unfold parse_argument at h
    rw [if_neg he] at h
    rcases hfs : find_substr p.m_equals.data t.data with _ | pos <;> rw [hfs] at h
    · exact parse_specifier_ty_not_end p t t "" false evs es h
    · simp only [] at h
      split at h
      · exact absurd h (by simp)
      · exact parse_specifier_ty_not_end p t _ _ true evs es h

/-- process_token reports finish only on the end-of-options indicator. -/
theorem process_token_finish (p : parser) (t : String) (evs : List write_event)
    (es : List parsed_entry) :
    process_token p t = (evs, .finish es) → t = p.m_end_of_options := by
  unfold process_token
  rcases hpa : parse_argument p t with ⟨evs1, res⟩
  cases res with
  | error e =>
    intro h
    exact absurd h (by simp)
  | ok pr =>
    rcases pr with ⟨es1, ty⟩
    cases ty <;> intro h
    · exact absurd h (by simp)
    · exact parse_argument_ty_end p t evs1 es1 hpa
    · exact absurd h (by simp)
    · exact absurd h (by simp)
    · exact absurd h (by simp)


/-- Appending tokens after a successfully scanned prefix that contains no
end-of-options marker: the scan continues from the prefix result, provided
the first appended token cannot be captured as an optional argument. -/
theorem parse_loop_append (p : parser) (u : String) (us : List String)
    (hu : is_arg_candidate p u = false) :
    ∀ (ts : List String) (acc : List parsed_entry) (pos : List String)
      (pending : Option (parsed_entry × Bool)) (evs evs₀ : List write_event)
      (r : parser_result),
      p.m_end_of_options ∉ ts →
      parse_loop p ts acc pos pending evs = (evs₀, .ok r) →
      parse_loop p (ts ++ u :: us) acc pos pending evs =
        parse_loop p (u :: us) r.entries r.positional none evs₀ := by
  intro ts
  induction ts with
  | nil =>
    intro acc pos pending evs evs₀ r _ h
    rcases pending with _ | ⟨e, req⟩
    · simp only [parse_loop, Prod.mk.injEq, Except.ok.injEq] at h
      obtain ⟨he, hr⟩ := h
      subst he
      subst hr
      rfl
    · cases req with
      | true => simp [parse_loop] at h
      | false =>
        simp only [parse_loop, Prod.mk.injEq, Except.ok.injEq] at h
        obtain ⟨he, hr⟩ := h
        subst he
        subst hr
        show parse_loop p (u :: us) acc pos (some (e, false)) evs = _
        simp only [parse_loop, hu, Bool.false_eq_true, if_false]
  | cons t ts ih =>
    intro acc pos pending evs evs₀ r hmem h
    have hmt : t ≠ p.m_end_of_options := fun he => hmem (by simp [he])
    have hmts : p.m_end_of_options ∉ ts := fun hc => hmem (by simp [hc])
    have hnend : ¬ (is_end_indicator p t = true) := by
      simp [is_end_indicator]
      exact hmt
    rcases pending with _ | ⟨e, req⟩
    · rw [List.cons_append]
      simp only [parse_loop] at h ⊢
      rcases hpt : process_token p t with ⟨evs₁, sr⟩
      rw [hpt] at h
      cases sr with
      | failed err => simp at h
      | finish es =>
        exact absurd (process_token_finish p t evs₁ es hpt) hmt
      | keep_going es to_pos pend =>
        exact ih (acc ++ es) (if to_pos then pos ++ [t] else pos) pend (evs ++ evs₁)
          evs₀ r hmts h
    · cases req with
      | true =>
        rw [List.cons_append]
        simp only [parse_loop] at h ⊢
        rw [if_neg hnend] at h ⊢
        rcases hw : write_option_argument { e with argument := t } with err | evs₂
        all_goals rw [hw] at h
        · simp at h
        · exact ih (acc ++ [{ e with argument := t }]) pos none (evs ++ evs₂) evs₀ r hmts h
      | false =>
        rw [List.cons_append]
        simp only [parse_loop] at h ⊢
        by_cases hcand : is_arg_candidate p t = true
        · rw [if_pos hcand] at h ⊢
          rcases hw : write_option_argument { e with argument := t } with err | evs₂
          all_goals rw [hw] at h
          · simp at h
          · exact ih (acc ++ [{ e with argument := t }]) pos none (evs ++ evs₂) evs₀ r
              hmts h
        · rw [if_neg hcand] at h ⊢
          rcases hpt : process_token p t with ⟨evs₁, sr⟩
          rw [hpt] at h
          cases sr with
          | failed err => simp at h
          | finish es =>
            exact absurd (process_token_finish p t evs₁ es hpt) hmt
          | keep_going es to_pos pend =>
            exact ih (acc ++ [e] ++ es) (if to_pos then pos ++ [t] else pos) pend
              (evs ++ evs₁) evs₀ r hmts h

/-- The binder result depends only on the descriptor, the argument text and
the specifier text of the entry. -/
theorem write_option_argument_congr (e1 e2 : parsed_entry)
    (h1 : e1.opt_info = e2.opt_info) (h2 : e1.argument = e2.argument)
    (h3 : e1.original_without_argument = e2.original_without_argument) :
    write_option_argument e1 = write_option_argument e2 := by
  unfold write_option_argument
  rw [h1, h2, h3]

/-- The binder on a string-typed or unbound descriptor always succeeds,
writing the verbatim argument when a target is bound. -/
theorem write_string_or_unbound (e : parsed_entry) (o : option)
    (ho : e.opt_info = some o)
    (h : o.has_bound_arg = false ∨ o.argument_type = .string_arg) :
    write_option_argument e =
      .ok (if o.has_bound_arg then
        [.string_write o.long_name o.short_name e.argument] else []) := by
  cases hb : o.has_bound_arg with
  | false => simp [write_option_argument, ho, hb]
  | true =>
    have hs : o.argument_type = .string_arg := by
      rcases h with h2 | h2
      · rw [hb] at h2
        exact absurd h2 (by simp)
      · exact h2
    simp [write_option_argument, ho, hb, hs]

/-- C2: for a registered required-argument option, parsing the single token
`--name=value` and parsing the two separate tokens `--name` `value` produce
entries that agree on the resolved long name, the resolved short name and
the argument string. -/
theorem c2_assignment_and_separate_token_agree (gs : List option_group)
    (name value : String) (o : option)
    (h1 : name ≠ "") (h2 : '=' ∉ name.data)
    (h3 : parser.find_option_long (dparser gs) name = some o)
    (h4 : o.argument_name ≠ "") (h5 : o.arg_required = true)
    (h6 : value ≠ "--")
    (h7 : o.has_bound_arg = false ∨ o.argument_type = .string_arg) :
    ∃ (evs₁ evs₂ : List write_event) (e₁ e₂ : parsed_entry),
      parse (dparser gs) ["--" ++ name ++ "=" ++ value] false =
        (evs₁, .ok { entries := [e₁], positional := [] }) ∧
      parse (dparser gs) ["--" ++ name, value] false =
        (evs₂, .ok { entries := [e₂], positional := [] }) ∧
      e₁.long_name = e₂.long_name ∧ e₁.short_name = e₂.short_name ∧
      e₁.argument = e₂.argument ∧ e₁.argument = value := by
  have hwevs : write_option_argument
      (long_option_entry ("--" ++ name ++ "=" ++ value) ("--" ++ name) name o value) =
      .ok (if o.has_bound_arg then
        [.string_write o.long_name o.short_name value] else []) :=
    write_string_or_unbound _ o rfl h7
  have hpa₁ : parse_argument (dparser gs) ("--" ++ name ++ "=" ++ value) =
      ((if o.has_bound_arg then
          [.string_write o.long_name o.short_name value] else []) ++ write_bool_events o,
       .ok ([long_option_entry ("--" ++ name ++ "=" ++ value) ("--" ++ name) name o value],
            .no_arg)) := by
    rw [parse_argument_long_assign gs name value h1 h2,
      parse_specifier_long_assign_witharg gs _ name value o h1 h3 h4, hwevs]
  have hpa₂ : parse_argument (dparser gs) ("--" ++ name) =
      (write_bool_events o,
       .ok ([long_option_entry ("--" ++ name) ("--" ++ name) name o ""],
            .arg_required)) := by
    rw [parse_argument_long_noassign gs name h1 h2,
      parse_specifier_long_noassign_witharg gs _ name o h1 h3 h4]
    simp [h5]
  have hw2 : write_option_argument
      { long_option_entry ("--" ++ name) ("--" ++ name) name o "" with argument := value } =
      .ok (if o.has_bound_arg then
        [.string_write o.long_name o.short_name value] else []) := by
    rw [write_option_argument_congr
      { long_option_entry ("--" ++ name) ("--" ++ name) name o "" with argument := value }
      (long_option_entry ("--" ++ name ++ "=" ++ value) ("--" ++ name) name o value)
      rfl rfl rfl]
    exact hwevs
  have hend2 : ¬ (is_end_indicator (dparser gs) value = true) := by
    simp [is_end_indicator, dparser]
    exact h6
  refine ⟨(if o.has_bound_arg then
      [.string_write o.long_name o.short_name value] else []) ++ write_bool_events o,
    write_bool_events o ++ (if o.has_bound_arg then
      [.string_write o.long_name o.short_name value] else []),
    long_option_entry ("--" ++ name ++ "=" ++ value) ("--" ++ name) name o value,
    { long_option_entry ("--" ++ name) ("--" ++ name) name o "" with argument := value },
    ?_, ?_, rfl, rfl, rfl, rfl⟩
  · show parse_loop (dparser gs) ["--" ++ name ++ "=" ++ value] [] [] none [] = _
    simp only [parse_loop, process_token, hpa₁]
    simp [parse_loop]
  · show parse_loop (dparser gs) ["--" ++ name, value] [] [] none [] = _
    simp only [parse_loop, process_token, hpa₂, List.dropLast_single,
      List.getLast?_singleton, Option.map_some]
    rw [if_neg hend2]
    rw [hw2]
    simp [parse_loop]

/-- C3: once a token equal to the configured end-of-options indicator is
scanned, every remaining token is copied verbatim, in order, into the
positional list and produces no parsed entries, whatever its leading
prefixes; instantiated by the witness at input `["--", "-x", "--y"]`, giving
positional `["-x", "--y"]` and no entries. -/
theorem c3_end_of_options_positional (p : parser) (ts us : List String)
    (evs₀ : List write_event) (r : parser_result)
    (h1 : p.m_end_of_options ∉ ts)
    (h2 : parse p ts false = (evs₀, .ok r)) :
    parse p (ts ++ p.m_end_of_options :: us) false =
      (evs₀, .ok { entries := r.entries, positional := r.positional ++ us }) := by
  have hcand : is_arg_candidate p p.m_end_of_options = false := by
    simp [is_arg_candidate, is_end_indicator]
  have h2b : parse_loop p ts [] [] none [] = (evs₀, .ok r) := h2
  have happ := parse_loop_append p p.m_end_of_options us hcand ts [] [] none [] evs₀ r
    h1 h2b
  have hpt : process_token p p.m_end_of_options = ([], .finish []) := by
    unfold process_token
    have hpa : parse_argument p p.m_end_of_options = ([], .ok ([], .end_indicator)) := by
      unfold parse_argument
      rw [if_pos (by simp [is_end_indicator])]
    rw [hpa]
  have hRHS : parse_loop p (p.m_end_of_options :: us) r.entries r.positional none evs₀ =
      (evs₀, .ok { entries := r.entries, positional := r.positional ++ us }) := by
    simp only [parse_loop, hpt]
    simp
  show parse_loop p (ts ++ p.m_end_of_options :: us) [] [] none [] = _
  rw [happ, hRHS]


/-- C4: an unrecognized option specifier makes the parse fail with an
invalid-option error carrying exactly the offending text, regardless of
surrounding valid options: an unknown long name fails carrying the whole
specifier, and an unknown character inside a short-option cluster fails
carrying just that one-character option with the short prefix re-attached. -/
theorem c4_unknown_option_invalid_error :
    (∀ (gs : List option_group) (ts us : List String) (name : String)
        (evs₀ : List write_event) (r : parser_result),
      parse (dparser gs) ts false = (evs₀, .ok r) →
      "--" ∉ ts →
      name ≠ "" → '=' ∉ name.data →
      parser.find_option_long (dparser gs) name = none →
      (parse (dparser gs) (ts ++ ("--" ++ name) :: us) false).2 =
        .error { kind := .invalid_option, fn_name := fn_parse_argument,
                 option_text := "--" ++ name })
    ∧ (∀ (gs : List option_group) (ts us : List String) (cs₁ : List Char) (c : Char)
        (cs₂ : List Char) (evs₀ : List write_event) (r : parser_result),
      parse (dparser gs) ts false = (evs₀, .ok r) →
      "--" ∉ ts →
      (∀ c' ∈ cs₁, ∃ o', parser.find_option_short (dparser gs) c' = some o'
          ∧ o'.argument_name = "") →
      parser.find_option_short (dparser gs) c = none →
      (cs₁ ++ c :: cs₂).head? ≠ some '-' →
      '=' ∉ cs₁ → c ≠ '=' → '=' ∉ cs₂ →
      (parse (dparser gs)
          (ts ++ ("-" ++ String.mk (cs₁ ++ c :: cs₂)) :: us) false).2 =
        .error { kind := .invalid_option, fn_name := fn_short_group,
                 option_text := "-" ++ c.toString }) := by
  constructor
  · intro gs ts us name evs₀ r hok hmem hname heq hf
    have hpa : parse_argument (dparser gs) ("--" ++ name) =
        ([], .error { kind := .invalid_option, fn_name := fn_parse_argument,
                      option_text := "--" ++ name }) := by
      rw [parse_argument_long_noassign gs name hname heq]
      exact parse_specifier_long_unknown gs _ name "" false hname hf
    have hcand : is_arg_candidate (dparser gs) ("--" ++ name) = false := by
      simp [is_arg_candidate, is_long_option_dd gs name hname]
    have hok2 : parse_loop (dparser gs) ts [] [] none [] = (evs₀, .ok r) := hok
    have happ := parse_loop_append (dparser gs) ("--" ++ name) us hcand ts
      [] [] none [] evs₀ r hmem hok2
    show (parse_loop (dparser gs) (ts ++ ("--" ++ name) :: us) [] [] none []).2 = _
    rw [happ]
    simp only [parse_loop, process_token, hpa]
  · intro gs ts us cs₁ c cs₂ evs₀ r hok hmem hcs₁ hc hhead he1 he2 he3
    have hne : cs₁ ++ c :: cs₂ ≠ [] := by simp
    have hmemeq : '=' ∉ cs₁ ++ c :: cs₂ := by
      simp only [List.mem_append, List.mem_cons, not_or]
      exact ⟨he1, fun h => he2 h.symm, he3⟩
    have hsplit := parse_argument_short_noassign gs (cs₁ ++ c :: cs₂) hne hmemeq hhead
    obtain ⟨fes, es₁, hskip, _⟩ := short_group_noarg_skip (dparser gs) "" false
      cs₁ (c :: cs₂) hcs₁ (by simp)
    have hpa : (parse_argument (dparser gs)
        ("-" ++ String.mk (cs₁ ++ c :: cs₂))).2 =
        .error { kind := .invalid_option, fn_name := fn_short_group,
                 option_text := "-" ++ c.toString } := by
      rw [hsplit, hskip,
        short_group_unknown_head (dparser gs) c cs₂ "" false hc]
      rfl
    obtain ⟨hlo, hso, hne2⟩ := short_head_facts gs (cs₁ ++ c :: cs₂) hne hhead
    have hcand : is_arg_candidate (dparser gs)
        ("-" ++ String.mk (cs₁ ++ c :: cs₂)) = false := by
      simp [is_arg_candidate, hso]
    have hok2 : parse_loop (dparser gs) ts [] [] none [] = (evs₀, .ok r) := hok
    have happ := parse_loop_append (dparser gs)
      ("-" ++ String.mk (cs₁ ++ c :: cs₂)) us hcand ts [] [] none [] evs₀ r hmem hok2
    show (parse_loop (dparser gs)
      (ts ++ ("-" ++ String.mk (cs₁ ++ c :: cs₂)) :: us) [] [] none []).2 = _
    rw [happ]
    rcases hpa2 : parse_argument (dparser gs)
        ("-" ++ String.mk (cs₁ ++ c :: cs₂)) with ⟨evsX, resX⟩
    rw [hpa2] at hpa
    simp only at hpa
    subst hpa
    simp only [parse_loop, process_token, hpa2]


/-- C1 witness: the cluster `-abVALUE` on the witness registry yields the
`a` entry with empty argument followed by the `b` entry bound to VALUE. -/
theorem c1_witness :
    (parser.find_option_short WP 'b' = some Wb ∧ Wb.argument_name ≠ "") ∧
    ∃ evs es₁,
      parse_short_option_group WP (['a'] ++ 'b' :: ['V', 'A', 'L', 'U', 'E']) "" false =
        (evs, .ok (es₁ ++ [short_cluster_entry WP Wb 'b' ['V', 'A', 'L', 'U', 'E'] "" false],
          .no_arg)) ∧
      List.Forall₂ (fun e c' => e.argument = "" ∧ e.short_name = c' ∧ e.is_option = true)
        es₁ ['a'] ∧
      (short_cluster_entry WP Wb 'b' ['V', 'A', 'L', 'U', 'E'] "" false).argument =
        String.mk ['V', 'A', 'L', 'U', 'E'] ++
          (if false then parser.m_equals WP ++ "" else "") := by
  refine ⟨⟨rfl, by decide⟩, c1_cluster_argument_consumption WP ['a'] 'b'
    ['V', 'A', 'L', 'U', 'E'] "" false Wb ?_ rfl (by decide) (by decide) (Or.inl rfl)⟩
  intro c' hc'
  simp at hc'
  subst hc'
  exact ⟨Wa, rfl, rfl⟩

/-- C2 witness: `--file=in.txt` and `--file in.txt` agree on identity and
argument. -/
theorem c2_witness :
    ∃ (evs₁ evs₂ : List write_event) (e₁ e₂ : parsed_entry),
      parse WP ["--" ++ "file" ++ "=" ++ "in.txt"] false =
        (evs₁, .ok { entries := [e₁], positional := [] }) ∧
      parse WP ["--" ++ "file", "in.txt"] false =
        (evs₂, .ok { entries := [e₂], positional := [] }) ∧
      e₁.long_name = e₂.long_name ∧ e₁.short_name = e₂.short_name ∧
      e₁.argument = e₂.argument ∧ e₁.argument = "in.txt" :=
  c2_assignment_and_separate_token_agree [WG] "file" "in.txt" Wfile (by decide)
    (by decide) rfl (by decide) rfl (by decide) (Or.inl rfl)

/-- C3 witness: `["--", "-x", "--y"]` yields positional `["-x", "--y"]` and
no entries. -/
theorem c3_witness :
    parse WP ["--", "-x", "--y"] false =
      ([], .ok { entries := [], positional := ["-x", "--y"] }) :=
  c3_end_of_options_positional WP [] ["-x", "--y"] []
    { entries := [], positional := [] } (by simp) rfl

/-- C4 witness: after the valid `-a`, the unknown `--bogus` and the cluster
`-az` with unknown `z` fail with invalid-option carrying the offending
text. -/
theorem c4_witness :
    ((parse WP (["-a"] ++ ("--" ++ "bogus") :: []) false).2 =
      .error { kind := .invalid_option, fn_name := fn_parse_argument,
               option_text := "--" ++ "bogus" })
    ∧ ((parse WP (["-a"] ++ ("-" ++ String.mk (['a'] ++ 'z' :: [])) :: []) false).2 =
      .error { kind := .invalid_option, fn_name := fn_short_group,
               option_text := "-" ++ Char.toString 'z' }) := by
  constructor
  · exact c4_unknown_option_invalid_error.1 [WG] ["-a"] [] "bogus" []
      { entries := [short_base_entry WP Wa 'a'], positional := [] }
      rfl (by decide) (by decide) (by decide) rfl
  · refine c4_unknown_option_invalid_error.2 [WG] ["-a"] [] ['a'] 'z' [] []
      { entries := [short_base_entry WP Wa 'a'], positional := [] }
      rfl (by decide) ?_ rfl (by decide) (by decide) (by decide) (by decide)
    intro c' hc'
    simp at hc'
    subst hc'
    exact ⟨Wa, rfl, rfl⟩

/-- C5 witness: `--quiet=x` and the cluster `-aq=x` fail with
argument-not-accepted. -/
theorem c5_witness :
    (parse_argument WP ("--" ++ "quiet" ++ "=" ++ "x") =
      ([], .error { kind := .arg_not_accepted, fn_name := fn_parse_argument,
                    option_text := "--" ++ "quiet" }))
    ∧ ((parse_argument WP ("-" ++ String.mk (['a'] ++ ['q']) ++ "=" ++ "x")).2 =
      .error { kind := .arg_not_accepted, fn_name := fn_short_group,
               option_text := "-" ++ Char.toString 'q' }) := by
  constructor
  · exact c5_no_argument_option_rejects_assignment.1 [WG] "quiet" "x" Wq (by decide)
      (by decide) rfl rfl
  · refine c5_no_argument_option_rejects_assignment.2 [WG] ['a'] 'q' "x" Wq ?_ rfl rfl
      (by decide) (by decide) (by decide)
    intro c' hc'
    simp at hc'
    subst hc'
    exact ⟨Wa, rfl, rfl⟩

/-- C6 witness for the amended statement, at `-=x` and `--=x` on the witness
registry. -/
theorem c6_witness :
    parse_argument WP ("-=" ++ "x") =
      ([], .error { kind := .invalid_option, fn_name := fn_parse_argument,
                    option_text := "-=" })
    ∧ parse_argument WP ("--=" ++ "x") =
      ([], .error { kind := .invalid_option, fn_name := fn_parse_argument,
                    option_text := "--=" }) :=
  c6_bare_assignment_rejected [WG] "x"

/-- C7 witness: `--count=42` binds 42; `--count=abc`, the 20-digit value and
the trailing-garbage `12x` fail with their respective kinds. -/
theorem c7_witness :
    (parse_argument WP ("--" ++ "count" ++ "=" ++ "42") =
      ([.int_write Wcount.long_name Wcount.short_name 42] ++ write_bool_events Wcount,
       .ok ([long_option_entry ("--" ++ "count" ++ "=" ++ "42") ("--" ++ "count")
          "count" Wcount "42"], .no_arg)))
    ∧ ((parse_argument WP ("--" ++ "count" ++ "=" ++ "abc")).2 =
        .error { kind := .invalid_argument_value, fn_name := fn_write,
                 option_text := "--" ++ "count" })
    ∧ ((parse_argument WP ("--" ++ "count" ++ "=" ++ "99999999999999999999")).2 =
        .error { kind := .out_of_range, fn_name := fn_write,
                 option_text := "--" ++ "count" })
    ∧ ((parse_argument WP ("--" ++ "count" ++ "=" ++ "12x")).2 =
        .error { kind := .invalid_argument_value, fn_name := fn_write,
                 option_text := "--" ++ "count" }) := by
  have h := c7_integer_argument_binding [WG] "count" Wcount (by decide) (by decide)
    rfl (by decide) rfl rfl rfl
  exact ⟨h.1, h.2.1, h.2.2.1, h.2.2.2 "12x" 12 2 rfl (by decide)⟩

/-- C8 witness: `--size=-5` fails must-not-be-negative and
`--size=4294967296` fails out-of-range. -/
theorem c8_witness :
    ((parse_argument WP ("--" ++ "size" ++ "=" ++ "-5")).2 =
      .error { kind := .must_not_be_negative, fn_name := fn_write,
               option_text := "--" ++ "size" })
    ∧ ((parse_argument WP ("--" ++ "size" ++ "=" ++ "4294967296")).2 =
      .error { kind := .out_of_range, fn_name := fn_write,
               option_text := "--" ++ "size" }) := by
  have h := c8_unsigned_argument_errors [WG] "size" Wsize (by decide) (by decide)
    rfl (by decide) rfl rfl
  exact ⟨h.1 "-5" (-5) 2 (by decide) (by decide) (by decide),
    h.2.1 "4294967296" 4294967296 10 (by decide) (by decide) (by decide)⟩

/-- C9 witness: the failing cluster `-nabc` still records the presence-flag
write, while the failing long form `--num=abc` records nothing. -/
theorem c9_witness :
    (parse_short_option_group WP ('n' :: ['a', 'b', 'c']) "" false =
      ([.bool_write Wnum.long_name Wnum.short_name true],
       .error { kind := .invalid_argument_value, fn_name := fn_write,
                option_text := "-n" }))
    ∧ (parse_argument WP ("--" ++ "num" ++ "=" ++ "abc") =
      ([], .error { kind := .invalid_argument_value, fn_name := fn_write,
                    option_text := "--" ++ "num" })) := by
  constructor
  · exact c9_bound_flag_write_order.1 WP 'n' Wnum ['a', 'b', 'c'] "" false
      { kind := .invalid_argument_value, fn_name := fn_write, option_text := "-n" }
      rfl (by decide) rfl (by decide) rfl
  · exact c9_bound_flag_write_order.2 [WG] "num" "abc" Wnum
      { kind := .invalid_argument_value, fn_name := fn_write,
        option_text := "--" ++ "num" }
      (by decide) (by decide) rfl (by decide) rfl

/-- C10 witness: subscripting a registered name returns it unchanged;
subscripting the unknown name nope registers a fresh default option in the
""-named group and lookup then finds it; the short-name subscript behaves
the same way. -/
theorem c10_witness :
    (parser.subscript_long WP "file" = (WP, Wfile))
    ∧ (parser.subscript_long WP "nope" =
          (parser.add_option WP { long_name := "nope" }, { long_name := "nope" })
        ∧ parser.find_option_long (parser.subscript_long WP "nope").1 "nope" =
            some { long_name := "nope" }
        ∧ ∃ g ∈ (parser.subscript_long WP "nope").1.m_groups,
            g.name = "" ∧ ({ long_name := "nope" } : option) ∈ g.options)
    ∧ (parser.subscript_short WP 'f' = (WP, Wfile))
    ∧ (parser.subscript_short WP 'z' =
        (parser.add_option WP { short_name := 'z' }, { short_name := 'z' })) :=
  ⟨c10_subscript_lookup_or_register.1 WP "file" Wfile rfl,
   c10_subscript_lookup_or_register.2.1 WP "nope" rfl,
   c10_subscript_lookup_or_register.2.2.2.1 WP 'f' Wfile rfl,
   c10_subscript_lookup_or_register.2.2.2.2 WP 'z' rfl⟩


end optionpp
